import Mathlib

/-! Coordinator protobuf client.

A shallow embedding of `src/coordinator/protobuf_client.go`: the request
registry (`requestBuffer`), the response dispatcher (`sendResponse`), the
request sender (`MakeRequest`), the timeout sweeper
(`peridicallySweepTimedOutRequests`), the reconnect gate (`reconnect`) and
the frame reader (`readResponses`).

Conventions of the embedding:
* `uint32` identifiers and channel identities are natural numbers;
* `time.Time` is an integer count of nanoseconds, `Before` is `<`;
* a Go map is an `AList` (finite map with unique keys);
* Go channels live in a heap `Nat → Chan`; sending on or closing a closed
  channel is a run-time panic, modelled by `Except Panic`;
* the outcome of encoding, of writes on a connection and of dialing is
  supplied by the environment; a write while `conn` is nil is a panic;
* the registration step, the removal after exhausted retries and a sweeper
  pass each run under the write lock and are single steps; `sendResponse`
  holds the lock for its lookup and for its removal only, so operations of
  other goroutines may run after its lookup, after its send and after its
  close;
* the sequential definitions describe a call at the point where its blocking
  operations (channel send, dialing, waiting on the gate) have returned; the
  interleaving of concurrent `reconnect` calls is a separate step relation.
-/

namespace Coordinator

/-! ## Data model -/

/-- Modelled from the spec: the response kind tag of the `protocol` package
(`protocol.Response_Type`), which is not part of the sources. The spec lists
`STREAM_ITEM`, `END_STREAM`, `WRITE_OK` and an implicit other category. -/
inductive ResponseType where
  | STREAM_ITEM
  | END_STREAM
  | WRITE_OK
  | OTHER (tag : Nat)
  deriving DecidableEq, Repr

/-- Modelled from the spec: `protocol.Response`, a request identifier, a kind
tag and an uninterpreted payload. -/
structure Response where
  RequestId : Nat
  Type_ : ResponseType
  payload : List Nat
  deriving DecidableEq, Repr

/-- Modelled from the spec: `protocol.Request`, a caller-assigned identifier
and an uninterpreted payload. -/
structure Request where
  Id : Nat
  payload : List Nat
  deriving DecidableEq, Repr

/-- Go `error` values, uninterpreted. -/
abbrev Error := Nat

/-- The struct `runningRequest`: creation time and response channel. -/
structure runningRequest where
  timeMade : Int
  responseChan : Nat
  deriving DecidableEq, Repr

/-- The type of the field `requestBuffer`: `map[uint32]*runningRequest`. -/
abbrev RequestBuffer := AList (fun _ : Nat => runningRequest)

/-- A Go channel as seen by the client: whether it has been closed and the
values sent on it so far, oldest first. -/
structure Chan where
  closed : Bool
  received : List Response
  deriving DecidableEq, Repr

/-- Run-time panics: of the Go channel operations, and of a method call on
the nil `net.Conn` held by a client that has no connection. -/
inductive Panic where
  | sendOnClosedChannel
  | closeOfClosedChannel
  | nilDereference
  deriving DecidableEq, Repr

/-- Actions on the transport, in program order. -/
inductive NetEvent where
  | writeLen (n : Nat) (ok : Bool)
  | writePayload (data : List Nat) (ok : Bool)
  | closeConn (conn : Nat)
  | dial (ok : Bool)
  deriving DecidableEq, Repr

def REQUEST_RETRY_ATTEMPTS : Nat := 3

def IS_RECONNECTING : Nat := 1

def IS_CONNECTED : Nat := 0

/-- The constant `MAX_REQUEST_TIME = time.Second * 1200`, in nanoseconds. -/
def MAX_REQUEST_TIME : Int := 1000000000 * 1200

/-- The struct `ProtobufClient` together with the part of the world it acts
on: the channel heap, the log and the transport actions performed. -/
structure Client where
  conn : Option Nat
  requestBuffer : RequestBuffer
  reconnecting : Nat
  reconnectWait : Nat
  chans : Nat → Chan
  log : List String
  net : List NetEvent

/-- A channel as `make(chan *protocol.Response)` returns it. -/
def Chan.fresh : Chan := ⟨false, []⟩

/-- The client right after `NewProtobufClient`, before the first dial. -/
def Client.init : Client :=
  ⟨none, ∅, IS_CONNECTED, 0, fun _ => Chan.fresh, [], []⟩

/-! ## Channel operations -/

/-- The statement `ch <- r`. -/
def chanSend (chans : Nat → Chan) (ch : Nat) (r : Response) : Except Panic (Nat → Chan) :=
  if (chans ch).closed then .error .sendOnClosedChannel
  else .ok (Function.update chans ch ⟨false, (chans ch).received ++ [r]⟩)

/-- The statement `close(ch)`. -/
def chanClose (chans : Nat → Chan) (ch : Nat) : Except Panic (Nat → Chan) :=
  if (chans ch).closed then .error .closeOfClosedChannel
  else .ok (Function.update chans ch ⟨true, (chans ch).received⟩)

/-! ## Response dispatcher -/

/-- Whether a response type is `END_STREAM` or `WRITE_OK`. -/
def isTerminal (t : ResponseType) : Bool :=
  t == .END_STREAM || t == .WRITE_OK

/-- The method `sendResponse`, run with no other goroutine acting between
its lookup and its removal; `dispatchSplit` is the same method with the
operations of other goroutines at its three unlocked points. -/
def sendResponse (self : Client) (response : Response) : Except Panic Client :=
  match self.requestBuffer.lookup response.RequestId with
  | none => .ok self
  | some req =>
    match chanSend self.chans req.responseChan response with
    | .error e => .error e
    | .ok chans1 =>
      if response.Type_ = .END_STREAM ∨ response.Type_ = .WRITE_OK then
        match chanClose chans1 req.responseChan with
        | .error e => .error e
        | .ok chans2 =>
          .ok { self with
            chans := chans2
            requestBuffer := self.requestBuffer.erase response.RequestId }
      else
        .ok { self with chans := chans1 }

/-- Dispatch a sequence of responses one after another, with no operation of
another goroutine in between. -/
def dispatchAll (self : Client) : List Response → Except Panic Client
  | [] => .ok self
  | r :: rs =>
    match sendResponse self r with
    | .error e => .error e
    | .ok self1 => dispatchAll self1 rs

/-! ## Request sender -/

/-- The registration step of `MakeRequest` (the `if responseStream != nil`
block); `now` is the value of `time.Now()`. -/
def register (self : Client) (id : Nat) (responseStream : Option Nat) (now : Int) :
    Except Panic Client :=
  match responseStream with
  | none => .ok self
  | some ch =>
    match self.requestBuffer.lookup id with
    | some oldReq =>
      match chanClose self.chans oldReq.responseChan with
      | .error e => .error e
      | .ok chans1 =>
        .ok { self with
          log := self.log ++
            ["ProtobufClient: error, already has a request with this id, must have timed out: "]
          chans := chans1
          requestBuffer := self.requestBuffer.insert id ⟨now, ch⟩ }
    | none =>
      .ok { self with requestBuffer := self.requestBuffer.insert id ⟨now, ch⟩ }

/-! ## Timeout sweeper -/

/-- One pass of the loop body of `peridicallySweepTimedOutRequests` after the
sleep; `now` is the value of `time.Now()`. -/
def sweep (self : Client) (now : Int) : Client :=
  let maxAge := now - MAX_REQUEST_TIME
  self.requestBuffer.foldl
    (fun acc k req =>
      if req.timeMade < maxAge then
        { acc with
          requestBuffer := acc.requestBuffer.erase k
          log := acc.log ++ ["Request timed out."] }
      else acc)
    self

/-! ## Connection manager, one caller -/

/-- The call `atomic.CompareAndSwapUint32(addr, old, new)`: the new value of
the word and whether the swap happened. -/
def compareAndSwap (v old new : Nat) : Nat × Bool :=
  if v = old then (new, true) else (v, false)

/-- The method `Close`. -/
def Client.Close (self : Client) : Client :=
  match self.conn with
  | some c => { self with conn := none, net := self.net ++ [.closeConn c] }
  | none => self

/-- The dial loop of `reconnect`: `failures` dials fail, the next one returns
`newConn`. `attempts` is the counter before the increment of the iteration. -/
def dialLoop (newConn : Nat) : (failures : Nat) → (attempts : Nat) → Client → Client
  | 0, _, self =>
    { self with
      conn := some newConn
      log := self.log ++ ["ProtobufClient: connected to "]
      reconnecting := (compareAndSwap self.reconnecting IS_RECONNECTING IS_CONNECTED).1
      reconnectWait := self.reconnectWait - 1
      net := self.net ++ [.dial true] }
  | f + 1, attempts, self =>
    dialLoop newConn f (attempts + 1)
      { self with
        log := if (attempts + 1) % 100 = 0 then
            self.log ++ ["ProtobufClient: failed to connect to after 10 seconds. Continuing to retry..."]
          else self.log
        net := self.net ++ [.dial false] }

/-- The method `reconnect` run by a single caller with nobody else inside it:
when the gate is not swapped, `Wait` returns and so does the call. -/
def reconnect (self : Client) (failures newConn : Nat) : Client :=
  let swapped := compareAndSwap self.reconnecting IS_CONNECTED IS_RECONNECTING
  if !swapped.2 then self
  else
    dialLoop newConn failures 0
      (Client.Close { self with reconnecting := swapped.1, reconnectWait := self.reconnectWait + 1 })

/-! ## Request sender, continued -/

/-- What one pass of the retry loop meets on the transport. -/
inductive WriteOutcome where
  | ok
  | lenErr (e : Error)
  | payloadErr (e : Error)
  deriving DecidableEq, Repr

/-- The environment of one pass of the retry loop: the outcome of the framed
write, and for the reconnect that follows a failure the number of failed
dials and the connection finally obtained. -/
structure Attempt where
  write : WriteOutcome
  failedDials : Nat
  newConn : Nat
  deriving DecidableEq, Repr

/-- The two writes of one pass: `binary.Write` of `uint32(len(data))`, then
`conn.Write(data)` when the first succeeded. With `self.conn` nil the first
write is a method call on a nil interface and panics. Returns the value of
`err`. -/
def writeFrame (self : Client) (data : List Nat) (o : WriteOutcome) :
    Except Panic (Client × Option Error) :=
  match self.conn with
  | none => .error .nilDereference
  | some _ =>
    match o with
    | .ok =>
      .ok ({ self with net := self.net ++
          [.writeLen (data.length % 2 ^ 32) true, .writePayload data true] }, none)
    | .lenErr e =>
      .ok ({ self with
          net := self.net ++ [.writeLen (data.length % 2 ^ 32) false]
          log := self.log ++ ["ProtobufClient: error making request: "] }, some e)
    | .payloadErr e =>
      .ok ({ self with net := self.net ++
          [.writeLen (data.length % 2 ^ 32) true, .writePayload data false] }, some e)

/-- How the retry loop is left. -/
inductive LoopExit where
  | returnedNil (self : Client)
  | exhausted (self : Client) (err : Option Error)

/-- The loop `for attempts := 0; attempts < REQUEST_RETRY_ATTEMPTS; attempts++`;
`remaining` is `REQUEST_RETRY_ATTEMPTS - attempts`. -/
def retryLoop (env : Nat → Attempt) (data : List Nat) :
    (remaining : Nat) → (attempts : Nat) → Client → Option Error → Except Panic LoopExit
  | 0, _, self, err => .ok (.exhausted self err)
  | k + 1, attempts, self, _ =>
    match writeFrame self data (env attempts).write with
    | .error p => .error p
    | .ok (self1, none) => .ok (.returnedNil self1)
    | .ok (self1, some e) =>
      retryLoop env data k (attempts + 1)
        (reconnect self1 (env attempts).failedDials (env attempts).newConn) (some e)

/-- The method `MakeRequest`. `now` is the value of `time.Now()`, `encoded`
the result of `request.Encode()`, `env` the transport met by each attempt.
The result is the new client and the returned `error` (`none` for `nil`). -/
def MakeRequest (self : Client) (request : Request) (responseStream : Option Nat) (now : Int)
    (encoded : Except Error (List Nat)) (env : Nat → Attempt) :
    Except Panic (Client × Option Error) :=
  match register self request.Id responseStream now with
  | .error p => .error p
  | .ok self1 =>
    match encoded with
    | .error err => .ok (self1, some err)
    | .ok data =>
      match retryLoop env data REQUEST_RETRY_ATTEMPTS 0 self1 none with
      | .error p => .error p
      | .ok (.returnedNil self2) => .ok (self2, none)
      | .ok (.exhausted self2 err) =>
        .ok ({ self2 with requestBuffer := self2.requestBuffer.erase request.Id }, err)

/-! ## Frame reader -/

/-- How an inbound byte stream ends once its bytes are consumed. -/
inductive StreamEnd where
  | eof
  | failure (e : Error)
  deriving DecidableEq, Repr

/-- The bytes a connection will still deliver, and how it ends after them. -/
structure Stream where
  data : List Nat
  ending : StreamEnd
  deriving DecidableEq, Repr

/-- The Go value `io.EOF`. -/
def EOF : Error := 0

/-- The Go value `io.ErrUnexpectedEOF`. -/
def ErrUnexpectedEOF : Error := 1

/-- Little-endian value of a byte list. -/
def littleEndian : List Nat → Nat
  | [] => 0
  | b :: bs => b + 256 * littleEndian bs

/-- The call `binary.Read(conn, binary.LittleEndian, &messageSizeU)`: reads
exactly four bytes (`io.ReadFull`); a stream ending before that is an error. -/
def binaryReadUint32 (st : Stream) : Except Error Nat × Stream :=
  if 4 ≤ st.data.length then
    (.ok (littleEndian (st.data.take 4)), { st with data := st.data.drop 4 })
  else
    (.error (match st.ending with
      | .eof => if st.data.length = 0 then EOF else ErrUnexpectedEOF
      | .failure e => e), { st with data := [] })

/-- The call `io.Copy(buff, io.LimitReader(conn, messageSize))`: copies until
`messageSize` bytes are read or the source ends. Reaching end of stream is
not an error for `io.Copy`; a read failure is. Returns the bytes written to
`buff` and the value of `err`. -/
def ioCopyLimit (st : Stream) (messageSize : Nat) : (List Nat × Option Error) × Stream :=
  if messageSize ≤ st.data.length then
    ((st.data.take messageSize, none), { st with data := st.data.drop messageSize })
  else
    ((st.data, match st.ending with
      | .eof => none
      | .failure e => some e), { st with data := [] })

/-- What one pass of the loop of `readResponses` does after its two reads. -/
inductive ReadAction where
  | decode (buff : List Nat)
  | reconnect
  deriving DecidableEq, Repr

/-- The two reads of one pass of the loop of `readResponses`. -/
def readFrame (st : Stream) : ReadAction × Stream :=
  match binaryReadUint32 st with
  | (.ok messageSizeU, st1) =>
    match ioCopyLimit st1 messageSizeU with
    | ((buff, none), st2) => (.decode buff, st2)
    | ((_, some _), st2) => (.reconnect, st2)
  | (.error _, st1) => (.reconnect, st1)

/-- One pass of the loop of `readResponses`; `decode` stands for
`protocol.DecodeResponse`, `next` for the stream of the connection a
reconnect obtains. -/
def readResponsesBody (decode : List Nat → Except Error Response) (self : Client)
    (st : Stream) (failures newConn : Nat) (next : Stream) : Except Panic (Client × Stream) :=
  match readFrame st with
  | (.decode buff, st1) =>
    match decode buff with
    | .error _ =>
      .ok ({ self with log := self.log ++ ["ProtobufClient: error unmarshaling response: "] }, st1)
    | .ok response =>
      match sendResponse self response with
      | .error p => .error p
      | .ok self1 => .ok (self1, st1)
  | (.reconnect, _) => .ok (reconnect self failures newConn, next)

/-! ## Sequences of client operations -/

/-- The operations that run under the write lock of the registry, each a
single step: the registration step of `MakeRequest`, the removal at the end
of `MakeRequest` when the retries are exhausted, a sweeper pass. -/
inductive Op where
  | register (id : Nat) (responseStream : Option Nat) (now : Int)
  | exhaust (id : Nat)
  | sweep (now : Int)
  deriving DecidableEq, Repr

/-- The removal after the retry loop of `MakeRequest`:
`delete(self.requestBuffer, *request.Id)`. -/
def exhaust (self : Client) (id : Nat) : Client :=
  { self with requestBuffer := self.requestBuffer.erase id }

/-- One operation under the lock. -/
def Op.apply (self : Client) : Op → Except Panic Client
  | .register id responseStream now => Coordinator.register self id responseStream now
  | .exhaust id => .ok (Coordinator.exhaust self id)
  | .sweep now => .ok (Coordinator.sweep self now)

/-- A sequence of operations under the lock, stopping at the first panic. -/
def runOps (self : Client) : List Op → Except Panic Client
  | [] => .ok self
  | op :: ops =>
    match op.apply self with
    | .error p => .error p
    | .ok self1 => runOps self1 ops

/-- The sinks handed to the registration steps of a sequence, in order. -/
def registeredSinks : List Op → List Nat
  | [] => []
  | .register _ (some ch) _ :: ops => ch :: registeredSinks ops
  | _ :: ops => registeredSinks ops

/-- Whether an operation registers a sink under `id`. -/
def Op.registers (id : Nat) : Op → Bool
  | .register id1 (some _) _ => id1 == id
  | _ => false

/-- The method `sendResponse` with the operations other goroutines run while
it holds no lock: `afterLookup` between the read-locked lookup and the send,
`afterSend` between the send and the close, `afterClose` between the close
and the write-locked removal. When the call returns earlier (no entry, or a
response that is not terminal) the remaining operations run after it. -/
def dispatchSplit (self : Client) (response : Response)
    (afterLookup afterSend afterClose : List Op) : Except Panic Client :=
  match self.requestBuffer.lookup response.RequestId with
  | none => runOps self (afterLookup ++ afterSend ++ afterClose)
  | some req =>
    match runOps self afterLookup with
    | .error p => .error p
    | .ok self1 =>
      match chanSend self1.chans req.responseChan response with
      | .error p => .error p
      | .ok chans1 =>
        if response.Type_ = .END_STREAM ∨ response.Type_ = .WRITE_OK then
          match runOps { self1 with chans := chans1 } afterSend with
          | .error p => .error p
          | .ok self2 =>
            match chanClose self2.chans req.responseChan with
            | .error p => .error p
            | .ok chans2 =>
              match runOps { self2 with chans := chans2 } afterClose with
              | .error p => .error p
              | .ok self3 =>
                .ok { self3 with
                  requestBuffer := self3.requestBuffer.erase response.RequestId }
        else
          runOps { self1 with chans := chans1 } (afterSend ++ afterClose)

/-- One step of a run of the client: an operation under the lock, or a call
of `sendResponse` by the reader goroutine together with the operations that
run inside it. -/
inductive Step where
  | op (o : Op)
  | dispatch (response : Response) (afterLookup afterSend afterClose : List Op)
  deriving DecidableEq, Repr

/-- One step. -/
def Step.apply (self : Client) : Step → Except Panic Client
  | .op o => o.apply self
  | .dispatch response afterLookup afterSend afterClose =>
    dispatchSplit self response afterLookup afterSend afterClose

/-- A run, stopping at the first panic. -/
def runSteps (self : Client) : List Step → Except Panic Client
  | [] => .ok self
  | st :: sts =>
    match st.apply self with
    | .error p => .error p
    | .ok self1 => runSteps self1 sts

/-- The operations under the lock of a step, in the order they run. -/
def Step.ops : Step → List Op
  | .op o => [o]
  | .dispatch _ afterLookup afterSend afterClose => afterLookup ++ afterSend ++ afterClose

/-- The sinks handed to the registration steps of a run, in order. -/
def stepSinks : List Step → List Nat
  | [] => []
  | st :: sts => registeredSinks st.ops ++ stepSinks sts

/-- No sink is registered under the identifier of a response while the
dispatch of that response is under way: not after its lookup, and for a
terminal response not after its send or its close either. -/
def Step.quiet : Step → Bool
  | .op _ => true
  | .dispatch response afterLookup afterSend afterClose =>
    afterLookup.all (fun o => !o.registers response.RequestId) &&
    (!isTerminal response.Type_ ||
      (afterSend ++ afterClose).all (fun o => !o.registers response.RequestId))

/-- Every sink held in the registry is open, and no sink is held under two
identifiers. -/
def RegistryInv (self : Client) : Prop :=
  (∀ k req, self.requestBuffer.lookup k = some req →
    (self.chans req.responseChan).closed = false) ∧
  (∀ k1 k2 req1 req2, self.requestBuffer.lookup k1 = some req1 →
    self.requestBuffer.lookup k2 = some req2 →
    req1.responseChan = req2.responseChan → k1 = k2)

/-- The registry invariant together with what the sinks still to be
registered need: they are pairwise distinct, open, and not in the registry. -/
def SafeFor (self : Client) (future : List Nat) : Prop :=
  RegistryInv self ∧ future.Nodup ∧
  (∀ ch ∈ future, (self.chans ch).closed = false) ∧
  (∀ k req, self.requestBuffer.lookup k = some req → req.responseChan ∉ future)

/-- What holds while the dispatch of a response for `id`, found registered
with sink `c`, is under way: the entries of the other identifiers hold open
sinks different from `c`, an entry for `id` can only hold `c`, no sink is
held twice, and the sinks still to be registered are pairwise distinct, open,
not in the registry and different from `c`. Nothing is said on whether `c`
is open. -/
def FlightInv (self : Client) (future : List Nat) (id c : Nat) : Prop :=
  (∀ k req, self.requestBuffer.lookup k = some req → k ≠ id →
    (self.chans req.responseChan).closed = false ∧ req.responseChan ≠ c) ∧
  (∀ req, self.requestBuffer.lookup id = some req → req.responseChan = c) ∧
  (∀ k1 k2 req1 req2, self.requestBuffer.lookup k1 = some req1 →
    self.requestBuffer.lookup k2 = some req2 →
    req1.responseChan = req2.responseChan → k1 = k2) ∧
  future.Nodup ∧
  (∀ ch ∈ future, (self.chans ch).closed = false) ∧
  (∀ k req, self.requestBuffer.lookup k = some req → req.responseChan ∉ future) ∧
  c ∉ future

/-- The responses of a list up to and including the first one of type
`END_STREAM` or `WRITE_OK`. -/
def throughFirstTerminal : List Response → List Response
  | [] => []
  | r :: rs => if isTerminal r.Type_ then [r] else r :: throughFirstTerminal rs

/-! ## Connection manager, interleaved callers

Each caller of `reconnect` is a thread with a program counter; one step is
one synchronisation operation or one statement of the method. -/

/-- Where a caller of `reconnect` stands. -/
inductive PC where
  /-- Before the first compare-and-swap. -/
  | start
  /-- Not swapped: before `reconnectWait.Wait()` returns. -/
  | waiting
  /-- Swapped: before `reconnectWait.Add(1)`. -/
  | swapped
  /-- Before `self.Close()`. -/
  | closing
  /-- In the dial loop, before a `net.Dial`. -/
  | dialing
  /-- New connection stored in `self.conn`: before the second compare-and-swap. -/
  | installed
  /-- Before `reconnectWait.Done()`. -/
  | releasing
  /-- The call has returned; `viaWait` tells whether it left through `Wait`. -/
  | returned (viaWait : Bool)
  deriving DecidableEq, Repr

/-- A caller: its program counter and the number of `net.Dial` and `Close`
calls it has made. -/
structure Caller where
  pc : PC
  dials : Nat
  closes : Nat
  deriving DecidableEq, Repr

/-- The shared words of the client and all callers. `conn` holds the
identity of the current connection, `installs` counts the connections
stored into `self.conn` by reconnectors. -/
structure Gate where
  reconnecting : Nat
  reconnectWait : Nat
  conn : Option Nat
  installs : Nat
  callers : Nat → Caller

/-- One step of caller `i`; `dialOk` is the outcome of `net.Dial` when the
step is a dial and `c` the connection it returns. The result is `none` when
the caller cannot move: it has returned, or it is blocked in `Wait`. -/
def Gate.step (g : Gate) (i : Nat) (dialOk : Bool) (c : Nat) : Option Gate :=
  let me := g.callers i
  match me.pc with
  | .start =>
    let r := compareAndSwap g.reconnecting IS_CONNECTED IS_RECONNECTING
    if r.2 then
      some { g with reconnecting := r.1, callers := Function.update g.callers i { me with pc := .swapped } }
    else
      some { g with callers := Function.update g.callers i { me with pc := .waiting } }
  | .waiting =>
    if g.reconnectWait = 0 then
      some { g with callers := Function.update g.callers i { me with pc := .returned true } }
    else none
  | .swapped =>
    some { g with
      reconnectWait := g.reconnectWait + 1
      callers := Function.update g.callers i { me with pc := .closing } }
  | .closing =>
    some { g with
      conn := none
      callers := Function.update g.callers i { me with pc := .dialing, closes := me.closes + 1 } }
  | .dialing =>
    if dialOk then
      some { g with
        conn := some c
        installs := g.installs + 1
        callers := Function.update g.callers i { me with pc := .installed, dials := me.dials + 1 } }
    else
      some { g with callers := Function.update g.callers i { me with dials := me.dials + 1 } }
  | .installed =>
    some { g with
      reconnecting := (compareAndSwap g.reconnecting IS_RECONNECTING IS_CONNECTED).1
      callers := Function.update g.callers i { me with pc := .releasing } }
  | .releasing =>
    some { g with
      reconnectWait := g.reconnectWait - 1
      callers := Function.update g.callers i { me with pc := .returned false } }
  | .returned _ => none

/-- One entry of a schedule: which caller moves, and what a dial meets. -/
structure Move where
  caller : Nat
  dialOk : Bool
  newConn : Nat
  deriving DecidableEq, Repr

/-- An interleaving: the moves in order; `none` when a move is not enabled. -/
def Gate.run (g : Gate) : List Move → Option Gate
  | [] => some g
  | m :: ms =>
    match g.step m.caller m.dialOk m.newConn with
    | none => none
    | some g1 => Gate.run g1 ms

/-- The gate is connected over connection `c0` and every caller is about to
enter `reconnect`. -/
def Gate.init (c0 : Nat) : Gate :=
  ⟨IS_CONNECTED, 0, some c0, 0, fun _ => ⟨.start, 0, 0⟩⟩

/-- A caller is inside the close-and-redial sequence: it won the first
compare-and-swap and has not yet set the gate back. -/
def PC.redialing : PC → Bool
  | .swapped | .closing | .dialing | .installed => true
  | _ => false

/-- The value of `err` after a pass of the retry loop that met `o`. -/
def WriteOutcome.err : WriteOutcome → Option Error
  | .ok => none
  | .lenErr e => some e
  | .payloadErr e => some e

/-! ## Concrete states -/

/-- A run in which every sink is registered once: a request is answered by
one item, its identifier is registered again with a second sink; while the
terminal response is dispatched a request with another identifier is
registered after the lookup, a sweeper pass that evicts the entry of 7 runs
after the send and a fourth request is registered and given up after the
close; the request with the other identifier stays pending. -/
def sampleSteps : List Step :=
  [.op (.register 7 (some 1) 0), .dispatch ⟨7, .STREAM_ITEM, [42]⟩ [] [] [],
   .op (.register 7 (some 2) 5),
   .dispatch ⟨7, .END_STREAM, []⟩ [.register 8 (some 3) 6] [.sweep 1200000000006]
     [.register 9 (some 4) 1200000000008, .exhaust 9],
   .op (.register 10 none 1200000000009)]

/-- The reader looks up identifier 7 for an item; before it sends, the same
identifier is registered again with a second sink. -/
def raceSend : List Step :=
  [.op (.register 7 (some 1) 0),
   .dispatch ⟨7, .STREAM_ITEM, [42]⟩ [.register 7 (some 2) 5] [] []]

/-- The reader sends a terminal response for identifier 7; before it closes
the sink, the same identifier is registered again with a second sink. -/
def raceClose : List Step :=
  [.op (.register 7 (some 1) 0),
   .dispatch ⟨7, .END_STREAM, []⟩ [] [.register 7 (some 2) 5] []]

/-- The client of `NewProtobufClient` once its first dial has returned
connection 0. -/
def connected : Client := { Client.init with conn := some 0 }

/-- A frame announcing five payload bytes of which two arrive. -/
def truncatedFrame : List Nat := [5, 0, 0, 0, 1, 2]

/-- A decoder that accepts any payload as a `STREAM_ITEM` for identifier 7. -/
def lenientDecode : List Nat → Except Error Response :=
  fun buff => .ok ⟨7, .STREAM_ITEM, buff⟩

/-- A request with identifier 7. -/
def request7 : Request := ⟨7, [1, 2, 3]⟩

/-- A transport on which the first two framed writes fail (the first on the
length, the second on the payload) and later ones succeed. -/
def flaky2 : Nat → Attempt := fun i =>
  if i = 0 then ⟨.lenErr 11, 0, 5⟩ else if i = 1 then ⟨.payloadErr 12, 2, 6⟩ else ⟨.ok, 0, 0⟩

/-- A transport on which the framed write of attempt `i` fails with error
`20 + i`. -/
def dead : Nat → Attempt := fun i => ⟨.payloadErr (20 + i), 1, 30 + i⟩

/-- A client holding one pending request: identifier 7, made at time 0, with
channel 1 as its sink. -/
def pending7 : Client :=
  { Client.init with requestBuffer := AList.insert 7 ⟨0, 1⟩ ∅ }

/-- A client in which the identifiers 7 and 8 are both registered with
channel 1 as their sink. -/
def shared78 : Client :=
  { Client.init with requestBuffer := AList.insert 8 ⟨0, 1⟩ (AList.insert 7 ⟨0, 1⟩ ∅) }

/-- A client in which identifier 7 is registered with sink 1 and the
identifiers 8 and 9 are both registered with sink 2. -/
def shared89 : Client :=
  { Client.init with
    requestBuffer := AList.insert 9 ⟨0, 2⟩ (AList.insert 8 ⟨0, 2⟩ (AList.insert 7 ⟨0, 1⟩ ∅)) }

/-- A client in which identifier 7 is registered with sink 1 and that
channel has already been closed. -/
def closed7 : Client :=
  { pending7 with chans := Function.update pending7.chans 1 ⟨true, []⟩ }

/-- The client `pending7` after identifier 7 has been registered a second
time, at time 1, with the same channel 1: the registration step has closed
channel 1 as the displaced sink and registered it again. -/
def reRegistered7 : Client :=
  { pending7 with
    log := ["ProtobufClient: error, already has a request with this id, must have timed out: "]
    chans := Function.update pending7.chans 1 ⟨true, []⟩
    requestBuffer := pending7.requestBuffer.insert 7 ⟨1, 1⟩ }

/-- A transport on which every framed write succeeds. -/
def healthy : Nat → Attempt := fun _ => ⟨.ok, 0, 0⟩

/-- A `STREAM_ITEM` response for identifier 8. -/
def item8 : Response := ⟨8, .STREAM_ITEM, [43]⟩

/-- An `END_STREAM` response for identifier 7. -/
def end7 : Response := ⟨7, .END_STREAM, []⟩

/-- A `STREAM_ITEM` response for identifier 7. -/
def item7 : Response := ⟨7, .STREAM_ITEM, [42]⟩

/-- What holds of the gate at every instant: the gate word is one of its two
values; it reads reconnecting exactly while some caller is inside the
close-and-redial sequence; at most one caller is inside it; and a caller
that has not won the gate has neither closed nor dialed. -/
def GateInv (g : Gate) : Prop :=
  (g.reconnecting = IS_CONNECTED ∨ g.reconnecting = IS_RECONNECTING) ∧
  (g.reconnecting = IS_CONNECTED → ∀ i, (g.callers i).pc.redialing = false) ∧
  (g.reconnecting = IS_RECONNECTING → ∃ i, (g.callers i).pc.redialing = true) ∧
  (∀ i j, (g.callers i).pc.redialing = true → (g.callers j).pc.redialing = true → i = j) ∧
  (∀ i, ((g.callers i).pc = .start ∨ (g.callers i).pc = .waiting ∨
      (g.callers i).pc = .returned true) →
    (g.callers i).dials = 0 ∧ (g.callers i).closes = 0)

/-- The schedule in which caller 0 wins the gate and caller 1, finding the
gate taken, goes through `Wait` before caller 0 has reached `Add(1)`. -/
def earlyWait : List Move := [⟨0, true, 1⟩, ⟨1, true, 1⟩, ⟨1, true, 1⟩]

/-- The schedule in which caller 0 runs `reconnect` to its end (one failed
dial, then connection 1) and caller 1 runs it afterwards (connection 2). -/
def oneAfterTheOther : List Move :=
  [⟨0, true, 1⟩, ⟨0, true, 1⟩, ⟨0, true, 1⟩, ⟨0, false, 1⟩, ⟨0, true, 1⟩, ⟨0, true, 1⟩,
   ⟨0, true, 1⟩,
   ⟨1, true, 2⟩, ⟨1, true, 2⟩, ⟨1, true, 2⟩, ⟨1, true, 2⟩, ⟨1, true, 2⟩, ⟨1, true, 2⟩]

/-- The schedule in which caller 1 arrives while caller 0 is dialing, waits,
and returns after caller 0 has released the gate. -/
def overlapped : List Move :=
  [⟨0, true, 1⟩, ⟨0, true, 1⟩, ⟨1, true, 2⟩, ⟨0, true, 1⟩, ⟨0, true, 1⟩, ⟨0, true, 1⟩,
   ⟨0, true, 1⟩, ⟨1, true, 2⟩]

/-! ## Lemmas on the sweeper -/

/-- The body of the range loop of the sweeper, for one map entry. -/
def sweepBody (maxAge : Int) (acc : Client) (e : Sigma (fun _ : Nat => runningRequest)) : Client :=
  if e.2.timeMade < maxAge then
    { acc with
      requestBuffer := acc.requestBuffer.erase e.1
      log := acc.log ++ ["Request timed out."] }
  else acc

theorem sweep_eq_foldl (self : Client) (now : Int) :
    sweep self now = self.requestBuffer.entries.foldl (sweepBody (now - MAX_REQUEST_TIME)) self := by
  rfl

theorem lookup_erase_eq (m : RequestBuffer) (k a : Nat) :
    (m.erase a).lookup k = if k = a then none else m.lookup k := by
  by_cases h : k = a
  · subst h; simp
  · simp [h, AList.lookup_erase_ne h]

theorem foldl_sweepBody_lookup (maxAge : Int) (l : List (Sigma (fun _ : Nat => runningRequest)))
    (acc : Client) (k : Nat) :
    (l.foldl (sweepBody maxAge) acc).requestBuffer.lookup k =
      if (∃ e ∈ l, e.1 = k ∧ e.2.timeMade < maxAge) then none
      else acc.requestBuffer.lookup k := by
  induction l generalizing acc with
  | nil => simp
  | cons e l ih =>
    rw [List.foldl_cons, ih]
    by_cases h1 : ∃ e ∈ l, e.1 = k ∧ e.2.timeMade < maxAge
    · have h2 : ∃ x ∈ e :: l, x.1 = k ∧ x.2.timeMade < maxAge := by
        obtain ⟨x, hx, hk⟩ := h1
        exact ⟨x, List.mem_cons_of_mem _ hx, hk⟩
      rw [if_pos h1, if_pos h2]
    · rw [if_neg h1]
      by_cases h3 : e.1 = k ∧ e.2.timeMade < maxAge
      · have h2 : ∃ x ∈ e :: l, x.1 = k ∧ x.2.timeMade < maxAge :=
          ⟨e, List.mem_cons_self _ _, h3⟩
        rw [if_pos h2]
        simp [sweepBody, h3.2, lookup_erase_eq, h3.1.symm]
      · have h2 : ¬ ∃ x ∈ e :: l, x.1 = k ∧ x.2.timeMade < maxAge := by
          rintro ⟨x, hx, hk⟩
          rcases List.mem_cons.1 hx with rfl | hx
          · exact h3 hk
          · exact h1 ⟨x, hx, hk⟩
        rw [if_neg h2]
        unfold sweepBody
        split
        · rename_i hold
          have hne : k ≠ e.1 := fun hk => h3 ⟨hk.symm, hold⟩
          simp [lookup_erase_eq, hne]
        · rfl

theorem foldl_sweepBody_chans (maxAge : Int) (l : List (Sigma (fun _ : Nat => runningRequest)))
    (acc : Client) :
    (l.foldl (sweepBody maxAge) acc).chans = acc.chans ∧
    (l.foldl (sweepBody maxAge) acc).conn = acc.conn ∧
    (l.foldl (sweepBody maxAge) acc).net = acc.net := by
  induction l generalizing acc with
  | nil => simp
  | cons e l ih =>
    rw [List.foldl_cons]
    obtain ⟨h1, h2, h3⟩ := ih (sweepBody maxAge acc e)
    rw [h1, h2, h3]
    unfold sweepBody
    split <;> simp

/-- After a sweep at `now`, the entry under `k` is the old entry when that
entry was made at or after `now - MAX_REQUEST_TIME`, and absent otherwise. -/
theorem sweep_lookup (self : Client) (now : Int) (k : Nat) :
    (sweep self now).requestBuffer.lookup k =
      (self.requestBuffer.lookup k).filter
        (fun req => decide (¬ req.timeMade < now - MAX_REQUEST_TIME)) := by
  rw [sweep_eq_foldl, foldl_sweepBody_lookup]
  cases hl : self.requestBuffer.lookup k with
  | none =>
    have : ¬ ∃ e ∈ self.requestBuffer.entries, e.1 = k ∧ e.2.timeMade < now - MAX_REQUEST_TIME := by
      rintro ⟨⟨a, b⟩, he, hk, _⟩
      simp only at hk
      subst hk
      have := AList.mem_lookup_iff.2 he
      rw [hl] at this
      simp at this
    simp [this]
  | some req =>
    by_cases hold : req.timeMade < now - MAX_REQUEST_TIME
    · have : ∃ e ∈ self.requestBuffer.entries, e.1 = k ∧ e.2.timeMade < now - MAX_REQUEST_TIME :=
        ⟨⟨k, req⟩, AList.mem_lookup_iff.1 (by rw [hl]; simp), rfl, hold⟩
      simp [this, Option.filter, hold]
    · have : ¬ ∃ e ∈ self.requestBuffer.entries, e.1 = k ∧ e.2.timeMade < now - MAX_REQUEST_TIME := by
        rintro ⟨⟨a, b⟩, he, hk, hb⟩
        simp only at hk
        subst hk
        have hm := AList.mem_lookup_iff.2 he
        rw [hl] at hm
        simp at hm
        subst hm
        exact hold hb
      simp [this, Option.filter, hold]

/-! ## Lemmas on the dispatcher -/

theorem terminal_iff (t : ResponseType) :
    (t = .END_STREAM ∨ t = .WRITE_OK) ↔ isTerminal t = true := by
  cases t <;> simp [isTerminal]

theorem sendResponse_absent (self : Client) (response : Response)
    (h : self.requestBuffer.lookup response.RequestId = none) :
    sendResponse self response = .ok self := by
  simp [sendResponse, h]

theorem sendResponse_terminal (self : Client) (response : Response) (req : runningRequest)
    (h : self.requestBuffer.lookup response.RequestId = some req)
    (hterm : response.Type_ = .END_STREAM ∨ response.Type_ = .WRITE_OK)
    (hopen : (self.chans req.responseChan).closed = false) :
    sendResponse self response = .ok { self with
      chans := Function.update self.chans req.responseChan
        ⟨true, (self.chans req.responseChan).received ++ [response]⟩
      requestBuffer := self.requestBuffer.erase response.RequestId } := by
  simp [sendResponse, h, chanSend, chanClose, hopen, hterm]

theorem sendResponse_stream (self : Client) (response : Response) (req : runningRequest)
    (h : self.requestBuffer.lookup response.RequestId = some req)
    (hterm : ¬ (response.Type_ = .END_STREAM ∨ response.Type_ = .WRITE_OK))
    (hopen : (self.chans req.responseChan).closed = false) :
    sendResponse self response = .ok { self with
      chans := Function.update self.chans req.responseChan
        ⟨false, (self.chans req.responseChan).received ++ [response]⟩ } := by
  simp [sendResponse, h, chanSend, hopen, hterm]

/-! ## Terminal responses -/

/-- C1, as the claim states it, fails: identifier 7 is registered twice with
the same channel 1, which leaves an entry for 7 whose sink the second
registration has closed; the `END_STREAM` response for 7 is then not
delivered, the send panics and nothing is closed or removed. -/
theorem sendResponse_closed_sink_panics :
    register Client.init 7 (some 1) 0 = .ok pending7 ∧
    register pending7 7 (some 1) 1 = .ok reRegistered7 ∧
    reRegistered7.requestBuffer.lookup end7.RequestId = some ⟨1, 1⟩ ∧
    end7.Type_ = .END_STREAM ∧
    sendResponse reRegistered7 end7 = .error .sendOnClosedChannel := by
  exact ⟨rfl, rfl, by decide, rfl, rfl⟩

/-- C1, amended: when the registry holds an entry for the identifier of a
response of type `END_STREAM` or `WRITE_OK` and the sink of that entry has
not been closed, `sendResponse` sends the response on that sink, then closes
the sink, and leaves the registry without that identifier and with every
other entry as it was; no other channel is touched. -/
theorem sendResponse_terminal_delivers_closes_retires (self : Client) (response : Response)
    (req : runningRequest)
    (hreg : self.requestBuffer.lookup response.RequestId = some req)
    (hterm : response.Type_ = .END_STREAM ∨ response.Type_ = .WRITE_OK)
    (hopen : (self.chans req.responseChan).closed = false) :
    ∃ sent self1,
      chanSend self.chans req.responseChan response = .ok sent ∧
      sent req.responseChan = ⟨false, (self.chans req.responseChan).received ++ [response]⟩ ∧
      chanClose sent req.responseChan = .ok self1.chans ∧
      sendResponse self response = .ok self1 ∧
      self1.chans req.responseChan =
        ⟨true, (self.chans req.responseChan).received ++ [response]⟩ ∧
      (∀ ch, ch ≠ req.responseChan → self1.chans ch = self.chans ch) ∧
      self1.requestBuffer = self.requestBuffer.erase response.RequestId ∧
      self1.requestBuffer.lookup response.RequestId = none ∧
      (∀ k, k ≠ response.RequestId →
        self1.requestBuffer.lookup k = self.requestBuffer.lookup k) := by
  refine ⟨Function.update self.chans req.responseChan
      ⟨false, (self.chans req.responseChan).received ++ [response]⟩, _, ?_, ?_, ?_,
    sendResponse_terminal self response req hreg hterm hopen, ?_, ?_, rfl, ?_, ?_⟩
  · simp [chanSend, hopen]
  · simp
  · simp [chanClose]
  · simp
  · intro ch hch
    simp [Function.update_noteq hch]
  · simp
  · intro k hk
    exact AList.lookup_erase_ne hk

theorem sendResponse_terminal_delivers_closes_retires_witness :
    pending7.requestBuffer.lookup end7.RequestId = some ⟨0, 1⟩ ∧
    (pending7.chans 1).closed = false ∧
    ∃ sent self1,
      chanSend pending7.chans 1 end7 = .ok sent ∧
      sent 1 = ⟨false, [end7]⟩ ∧
      chanClose sent 1 = .ok self1.chans ∧
      sendResponse pending7 end7 = .ok self1 ∧
      self1.chans 1 = ⟨true, [end7]⟩ ∧
      (∀ ch, ch ≠ 1 → self1.chans ch = pending7.chans ch) ∧
      self1.requestBuffer = pending7.requestBuffer.erase 7 ∧
      self1.requestBuffer.lookup 7 = none ∧
      (∀ k, k ≠ 7 → self1.requestBuffer.lookup k = pending7.requestBuffer.lookup k) :=
  ⟨by decide, by decide,
    sendResponse_terminal_delivers_closes_retires pending7 end7 ⟨0, 1⟩ (by decide)
      (Or.inl rfl) (by decide)⟩

/-! ## Registration -/

theorem lookup_insert_eq (m : RequestBuffer) (k a : Nat) (v : runningRequest) :
    (m.insert a v).lookup k = if k = a then some v else m.lookup k := by
  by_cases h : k = a
  · subst h; simp
  · simp [h, AList.lookup_insert_ne h]

theorem keys_count_le_one (m : RequestBuffer) (k : Nat) : m.keys.count k ≤ 1 :=
  List.nodup_iff_count_le_one.1 m.keys_nodup k

theorem register_nil (self : Client) (id : Nat) (now : Int) :
    register self id none now = .ok self := rfl

theorem register_fresh (self : Client) (id ch : Nat) (now : Int)
    (h : self.requestBuffer.lookup id = none) :
    register self id (some ch) now =
      .ok { self with requestBuffer := self.requestBuffer.insert id ⟨now, ch⟩ } := by
  simp [register, h]

theorem register_collision (self : Client) (id ch : Nat) (now : Int) (oldReq : runningRequest)
    (h : self.requestBuffer.lookup id = some oldReq)
    (hopen : (self.chans oldReq.responseChan).closed = false) :
    register self id (some ch) now =
      .ok { self with
        log := self.log ++
          ["ProtobufClient: error, already has a request with this id, must have timed out: "]
        chans := Function.update self.chans oldReq.responseChan
          ⟨true, (self.chans oldReq.responseChan).received⟩
        requestBuffer := self.requestBuffer.insert id ⟨now, ch⟩ } := by
  simp [register, h, chanClose, hopen]

/-- C4, as the claim states it, fails: the registry holds an entry for
identifier 7 whose sink, channel 1, has been closed (by the second of two
registrations of 7 with channel 1); the registration step for 7 with the new
sink 2 panics on the close of channel 1, and the entry for 7 is not
replaced. -/
theorem register_closed_old_sink_panics :
    register Client.init 7 (some 1) 0 = .ok pending7 ∧
    register pending7 7 (some 1) 1 = .ok reRegistered7 ∧
    reRegistered7.requestBuffer.lookup 7 = some ⟨1, 1⟩ ∧
    register reRegistered7 7 (some 2) 2 = .error .closeOfClosedChannel := by
  exact ⟨rfl, rfl, by decide, rfl⟩

/-- C4, amended: when the registry already holds an entry for `id` with a
sink `sOld` that has not been closed, the registration step of `MakeRequest`
for `id` with a non-nil sink `sNew` closes `sOld` and leaves exactly one
entry for `id`, with sink `sNew`; the entries of all other identifiers are
unchanged, no other channel is touched, and the registry holds at most one
entry per identifier. -/
theorem register_displaces_old_sink (self : Client) (id sNew : Nat) (now : Int)
    (oldReq : runningRequest)
    (hreg : self.requestBuffer.lookup id = some oldReq)
    (hopen : (self.chans oldReq.responseChan).closed = false) :
    ∃ self1,
      register self id (some sNew) now = .ok self1 ∧
      chanClose self.chans oldReq.responseChan = .ok self1.chans ∧
      self1.chans oldReq.responseChan = ⟨true, (self.chans oldReq.responseChan).received⟩ ∧
      (∀ ch, ch ≠ oldReq.responseChan → self1.chans ch = self.chans ch) ∧
      self1.requestBuffer.lookup id = some ⟨now, sNew⟩ ∧
      self1.requestBuffer.keys.count id = 1 ∧
      (∀ k, k ≠ id → self1.requestBuffer.lookup k = self.requestBuffer.lookup k) ∧
      (∀ k, self.requestBuffer.keys.count k ≤ 1 ∧ self1.requestBuffer.keys.count k ≤ 1) := by
  refine ⟨_, register_collision self id sNew now oldReq hreg hopen, ?_, ?_, ?_, ?_, ?_, ?_, ?_⟩
  · simp [chanClose, hopen]
  · simp
  · intro ch hch
    simp [Function.update_noteq hch]
  · simp
  · apply List.count_eq_one_of_mem (AList.keys_nodup _)
    simp [AList.keys_insert]
  · intro k hk
    simp [AList.lookup_insert_ne hk]
  · intro k
    exact ⟨keys_count_le_one _ k, keys_count_le_one _ k⟩

theorem register_displaces_old_sink_witness :
    pending7.requestBuffer.lookup 7 = some ⟨0, 1⟩ ∧
    (pending7.chans 1).closed = false ∧
    ∃ self1,
      register pending7 7 (some 2) 5 = .ok self1 ∧
      chanClose pending7.chans 1 = .ok self1.chans ∧
      self1.chans 1 = ⟨true, []⟩ ∧
      (∀ ch, ch ≠ 1 → self1.chans ch = pending7.chans ch) ∧
      self1.requestBuffer.lookup 7 = some ⟨5, 2⟩ ∧
      self1.requestBuffer.keys.count 7 = 1 ∧
      (∀ k, k ≠ 7 → self1.requestBuffer.lookup k = pending7.requestBuffer.lookup k) ∧
      (∀ k, pending7.requestBuffer.keys.count k ≤ 1 ∧ self1.requestBuffer.keys.count k ≤ 1) :=
  ⟨by decide, by decide,
    register_displaces_old_sink pending7 7 2 5 ⟨0, 1⟩ (by decide) (by decide)⟩

/-! ## Sweeping -/

theorem sweep_chans (self : Client) (now : Int) :
    (sweep self now).chans = self.chans ∧ (sweep self now).conn = self.conn ∧
    (sweep self now).net = self.net := by
  rw [sweep_eq_foldl]
  exact foldl_sweepBody_chans _ _ _

/-- C5: after one pass of the sweeper at time `now`, the registry holds under
each identifier the entry it held before, unchanged, when that entry was
created at or after `now` minus 1200 seconds, and no entry otherwise. -/
theorem sweep_keeps_exactly_recent (self : Client) (now : Int) (k : Nat) :
    (sweep self now).requestBuffer.lookup k =
      (self.requestBuffer.lookup k).filter
        (fun req => decide (now - 1200 * 1000000000 ≤ req.timeMade)) := by
  rw [sweep_lookup]
  congr 1
  funext req
  simp [MAX_REQUEST_TIME]

/-- C6, as the claim states it, fails: the request with identifier 7 was
registered at time 0 with sink 1 and never answered; a sweeper pass later
than 1200 seconds after that removes the entry but does not close the sink. -/
theorem sweep_leaves_sink_open :
    pending7.requestBuffer.lookup 7 = some ⟨0, 1⟩ ∧
    (0 : Int) + 1200 * 1000000000 < 1200000000001 ∧
    (sweep pending7 1200000000001).requestBuffer.lookup 7 = none ∧
    ¬ ((sweep pending7 1200000000001).chans 1).closed = true := by
  refine ⟨by decide, by decide, ?_, ?_⟩
  · rw [sweep_lookup]
    decide
  · rw [(sweep_chans _ _).1]
    decide

/-- C6, amended: a pending request made at time `t` is removed from the
registry by a sweeper pass run later than `t` plus 1200 seconds; the pass
closes no sink and sends nothing: every channel, the sink of the removed
request included, is exactly as before the pass. -/
theorem sweep_evicts_stale_without_closing (self : Client) (id : Nat) (req : runningRequest)
    (now : Int)
    (hreg : self.requestBuffer.lookup id = some req)
    (hlate : req.timeMade + 1200 * 1000000000 < now) :
    (sweep self now).requestBuffer.lookup id = none ∧
    (sweep self now).chans = self.chans := by
  refine ⟨?_, (sweep_chans self now).1⟩
  rw [sweep_lookup, hreg]
  have : req.timeMade < now - MAX_REQUEST_TIME := by
    unfold MAX_REQUEST_TIME
    linarith
  simp [Option.filter, this]

theorem sweep_evicts_stale_without_closing_witness :
    pending7.requestBuffer.lookup 7 = some ⟨0, 1⟩ ∧
    (0 : Int) + 1200 * 1000000000 < 1200000000001 ∧
    (sweep pending7 1200000000001).requestBuffer.lookup 7 = none ∧
    (sweep pending7 1200000000001).chans = pending7.chans :=
  ⟨by decide, by decide,
    sweep_evicts_stale_without_closing pending7 7 ⟨0, 1⟩ 1200000000001 (by decide) (by decide)⟩

/-! ## The retry loop -/

theorem register_frame (self self1 : Client) (id : Nat) (responseStream : Option Nat) (now : Int)
    (h : register self id responseStream now = .ok self1) :
    self1.net = self.net ∧ self1.conn = self.conn ∧ self1.reconnecting = self.reconnecting := by
  unfold register at h
  split at h
  · cases h; exact ⟨rfl, rfl, rfl⟩
  · split at h
    · split at h
      · cases h
      · cases h; exact ⟨rfl, rfl, rfl⟩
    · cases h; exact ⟨rfl, rfl, rfl⟩

theorem register_lookup (self self1 : Client) (id ch : Nat) (now : Int)
    (h : register self id (some ch) now = .ok self1) :
    self1.requestBuffer.lookup id = some ⟨now, ch⟩ := by
  unfold register at h
  simp only at h
  split at h
  · split at h
    · cases h
    · cases h; simp
  · cases h; simp

theorem dialLoop_frame (newConn : Nat) (failures attempts : Nat) (self : Client) :
    (dialLoop newConn failures attempts self).requestBuffer = self.requestBuffer ∧
    (dialLoop newConn failures attempts self).chans = self.chans := by
  induction failures generalizing attempts self with
  | zero => exact ⟨rfl, rfl⟩
  | succ f ih =>
    unfold dialLoop
    obtain ⟨h1, h2⟩ := ih (attempts + 1)
      { self with
        log := if (attempts + 1) % 100 = 0 then
            self.log ++ ["ProtobufClient: failed to connect to after 10 seconds. Continuing to retry..."]
          else self.log
        net := self.net ++ [.dial false] }
    exact ⟨h1, h2⟩

theorem reconnect_frame (self : Client) (failures newConn : Nat) :
    (reconnect self failures newConn).requestBuffer = self.requestBuffer ∧
    (reconnect self failures newConn).chans = self.chans := by
  unfold reconnect
  simp only
  split
  · exact ⟨rfl, rfl⟩
  · obtain ⟨h1, h2⟩ := dialLoop_frame newConn failures 0
      (Client.Close { self with
        reconnecting := (compareAndSwap self.reconnecting IS_CONNECTED IS_RECONNECTING).1
        reconnectWait := self.reconnectWait + 1 })
    rw [h1, h2]
    unfold Client.Close
    split <;> exact ⟨rfl, rfl⟩

theorem dialLoop_conn (newConn : Nat) (failures attempts : Nat) (self : Client) :
    (dialLoop newConn failures attempts self).conn = some newConn := by
  induction failures generalizing attempts self with
  | zero => rfl
  | succ f ih =>
    unfold dialLoop
    exact ih _ _

theorem reconnect_conn (self : Client) (failures newConn : Nat) (h : self.conn ≠ none) :
    (reconnect self failures newConn).conn ≠ none := by
  unfold reconnect
  simp only
  split
  · exact h
  · rw [dialLoop_conn]
    exact Option.some_ne_none _

theorem writeFrame_frame (self : Client) (data : List Nat) (o : WriteOutcome)
    (h : self.conn ≠ none) :
    ∃ self1, writeFrame self data o = .ok (self1, o.err) ∧
      self1.requestBuffer = self.requestBuffer ∧ self1.chans = self.chans ∧
      self1.conn = self.conn := by
  cases hc : self.conn with
  | none => exact absurd hc h
  | some c =>
    cases o <;> simp only [writeFrame, hc, WriteOutcome.err] <;>
      exact ⟨_, rfl, rfl, rfl, rfl⟩

theorem err_ne_none (o : WriteOutcome) (h : o ≠ .ok) : ∃ e, o.err = some e := by
  cases o with
  | ok => exact absurd rfl h
  | lenErr e => exact ⟨e, rfl⟩
  | payloadErr e => exact ⟨e, rfl⟩

/-- When the first `n` passes from `attempts` on fail and the next one
succeeds within the budget, the loop returns `nil` from inside. -/
theorem retryLoop_recovers (env : Nat → Attempt) (data : List Nat) (remaining n : Nat) :
    ∀ (attempts : Nat) (self : Client) (err : Option Error), self.conn ≠ none →
    n < remaining →
    (∀ i, i < n → (env (attempts + i)).write ≠ .ok) →
    (env (attempts + n)).write = .ok →
    ∃ self1, retryLoop env data remaining attempts self err = .ok (.returnedNil self1) ∧
      self1.requestBuffer = self.requestBuffer ∧ self1.chans = self.chans := by
  induction remaining generalizing n with
  | zero => intro _ _ _ _ h; omega
  | succ k ih =>
    intro attempts self err hconn hn hfail hok
    obtain ⟨s1, hw, w1, w2, w3⟩ := writeFrame_frame self data (env attempts).write hconn
    cases n with
    | zero =>
      simp only [Nat.add_zero] at hok
      rw [hok] at hw
      refine ⟨s1, ?_, w1, w2⟩
      simp only [retryLoop, hok, hw, WriteOutcome.err]
    | succ m =>
      obtain ⟨e, he⟩ := err_ne_none _ (hfail 0 (Nat.succ_pos m))
      simp only [Nat.add_zero] at he
      rw [he] at hw
      obtain ⟨self2, h2, h3, h4⟩ := ih m (attempts + 1)
        (reconnect s1 (env attempts).failedDials (env attempts).newConn) (some e)
        (reconnect_conn _ _ _ (by rw [w3]; exact hconn))
        (by omega)
        (fun i hi => by
          have := hfail (i + 1) (by omega)
          rwa [show attempts + (i + 1) = attempts + 1 + i by omega] at this)
        (by rwa [show attempts + (m + 1) = attempts + 1 + m by omega] at hok)
      obtain ⟨r1, r2⟩ := reconnect_frame s1 (env attempts).failedDials (env attempts).newConn
      refine ⟨self2, ?_, by rw [h3, r1, w1], by rw [h4, r2, w2]⟩
      simp only [retryLoop, hw]
      exact h2

/-- When every pass of the budget fails, the loop is left at its end with
the error of the last pass. -/
theorem retryLoop_exhausts (env : Nat → Attempt) (data : List Nat) (remaining : Nat) :
    ∀ (attempts : Nat) (self : Client) (err : Option Error), self.conn ≠ none →
    (∀ i, i < remaining → (env (attempts + i)).write ≠ .ok) →
    ∃ self1, retryLoop env data remaining attempts self err =
        .ok (.exhausted self1
          (if remaining = 0 then err else (env (attempts + remaining - 1)).write.err)) ∧
      self1.requestBuffer = self.requestBuffer ∧ self1.chans = self.chans := by
  induction remaining with
  | zero => intro attempts self err _ _; exact ⟨self, rfl, rfl, rfl⟩
  | succ k ih =>
    intro attempts self err hconn hfail
    obtain ⟨s1, hw, w1, w2, w3⟩ := writeFrame_frame self data (env attempts).write hconn
    obtain ⟨e, he⟩ := err_ne_none _ (hfail 0 (Nat.succ_pos k))
    simp only [Nat.add_zero] at he
    rw [he] at hw
    obtain ⟨self2, h2, h3, h4⟩ := ih (attempts + 1)
      (reconnect s1 (env attempts).failedDials (env attempts).newConn) (some e)
      (reconnect_conn _ _ _ (by rw [w3]; exact hconn))
      (fun i hi => by
        have := hfail (i + 1) (by omega)
        rwa [show attempts + (i + 1) = attempts + 1 + i by omega] at this)
    obtain ⟨r1, r2⟩ := reconnect_frame s1 (env attempts).failedDials (env attempts).newConn
    refine ⟨self2, ?_, by rw [h3, r1, w1], by rw [h4, r2, w2]⟩
    simp only [retryLoop, hw]
    rw [h2]
    congr 2
    by_cases hk : k = 0
    · subst hk; simp [he]
    · simp only [hk, if_false, Nat.succ_ne_zero]
      congr 3
      omega

theorem register_chans_other (self self1 : Client) (id ch : Nat) (now : Int)
    (h : register self id (some ch) now = .ok self1)
    (hne : ∀ old, self.requestBuffer.lookup id = some old → old.responseChan ≠ ch) :
    self1.chans ch = self.chans ch := by
  unfold register at h
  simp only at h
  split at h
  · rename_i oldReq hold
    split at h
    · cases h
    · rename_i chans1 hclose
      cases h
      simp only
      unfold chanClose at hclose
      split at hclose
      · cases hclose
      · cases hclose
        exact Function.update_noteq (hne oldReq hold).symm _ _
  · cases h; rfl

/-- The registration step does not panic when the entry it displaces, if
any, holds an open sink. -/
theorem register_ok (self : Client) (id : Nat) (responseStream : Option Nat) (now : Int)
    (hsafe : ∀ ch old, responseStream = some ch → self.requestBuffer.lookup id = some old →
      (self.chans old.responseChan).closed = false) :
    ∃ self1, register self id responseStream now = .ok self1 := by
  cases responseStream with
  | none => exact ⟨self, rfl⟩
  | some ch =>
    cases hl : self.requestBuffer.lookup id with
    | none => exact ⟨_, register_fresh self id ch now hl⟩
    | some old => exact ⟨_, register_collision self id ch now old hl (hsafe ch old rfl hl)⟩

/-! ## MakeRequest -/

/-- C3, as the claim states it, fails. First: on the client that
`NewProtobufClient` has just returned, whose connection is still nil, a
request whose encoding succeeds panics in the first write although the
transport would accept every write; `MakeRequest` does not return `nil`.
Second: on a connected client whose entry for identifier 7 holds a closed
sink (7 registered twice with channel 1), `MakeRequest` for 7 with a new
sink panics in the registration step and returns nothing. -/
theorem MakeRequest_panics_before_writing :
    (Client.init.conn = none ∧
      (healthy 0).write = .ok ∧
      MakeRequest Client.init request7 none 0 (.ok [9, 9]) healthy = .error .nilDereference) ∧
    (register connected 7 (some 1) 0 = .ok { pending7 with conn := some 0 } ∧
      register { pending7 with conn := some 0 } 7 (some 1) 1 =
        .ok { reRegistered7 with conn := some 0 } ∧
      MakeRequest { reRegistered7 with conn := some 0 } request7 (some 2) 2 (.ok [9, 9]) healthy =
        .error .closeOfClosedChannel) := by
  exact ⟨⟨rfl, rfl, rfl⟩, ⟨rfl, rfl, rfl⟩⟩

/-- C3, amended: for a request whose encoding succeeds, made on a client
whose connection is not nil and in whose registry the entry displaced by the
registration step, if any, holds an open sink: the registration step returns
(leaving the client in `self1`); when the framed write fails `n` times in a
row with `n < 3` and the next attempt succeeds, `MakeRequest` returns `nil`
and the registry is as the registration step left it, so a registered entry
stays; when the write fails on all three attempts, `MakeRequest` returns the
error of the third attempt and the identifier of the request is not in the
registry. -/
theorem MakeRequest_retry_budget (self : Client) (request : Request)
    (responseStream : Option Nat) (now : Int) (data : List Nat) (env : Nat → Attempt)
    (hconn : self.conn ≠ none)
    (hsafe : ∀ ch old, responseStream = some ch →
      self.requestBuffer.lookup request.Id = some old →
      (self.chans old.responseChan).closed = false) :
    ∃ self1, register self request.Id responseStream now = .ok self1 ∧
      (∀ n, n < 3 → (∀ i, i < n → (env i).write ≠ .ok) → (env n).write = .ok →
        ∃ self2,
          MakeRequest self request responseStream now (.ok data) env = .ok (self2, none) ∧
          self2.requestBuffer = self1.requestBuffer ∧
          (∀ ch, responseStream = some ch →
            self2.requestBuffer.lookup request.Id = some ⟨now, ch⟩)) ∧
      ((∀ i, i < 3 → (env i).write ≠ .ok) →
        ∃ self2 e,
          MakeRequest self request responseStream now (.ok data) env = .ok (self2, some e) ∧
          (env 2).write.err = some e ∧
          self2.requestBuffer = self1.requestBuffer.erase request.Id ∧
          self2.requestBuffer.lookup request.Id = none) := by
  obtain ⟨self1, hreg⟩ := register_ok self request.Id responseStream now hsafe
  have hconn1 : self1.conn ≠ none := by
    rw [(register_frame self self1 request.Id responseStream now hreg).2.1]
    exact hconn
  refine ⟨self1, hreg, ?_, ?_⟩
  · intro n hn hfail hok
    obtain ⟨self2, h2, h3, _⟩ := retryLoop_recovers env data REQUEST_RETRY_ATTEMPTS n 0 self1 none
      hconn1 hn (by simpa using hfail) (by simpa using hok)
    refine ⟨self2, ?_, h3, ?_⟩
    · simp [MakeRequest, hreg, h2]
    · intro ch hch
      subst hch
      rw [h3]
      exact register_lookup self self1 request.Id ch now hreg
  · intro hfail
    obtain ⟨self2, h2, h3, _⟩ := retryLoop_exhausts env data REQUEST_RETRY_ATTEMPTS 0 self1 none
      hconn1 (by simpa using hfail)
    obtain ⟨e, he⟩ := err_ne_none _ (hfail 2 (by decide))
    refine ⟨{ self2 with requestBuffer := self2.requestBuffer.erase request.Id }, e, ?_, he, ?_, ?_⟩
    · have h5 : (if REQUEST_RETRY_ATTEMPTS = 0 then none
          else (env (0 + REQUEST_RETRY_ATTEMPTS - 1)).write.err) = some e := by
        simpa [REQUEST_RETRY_ATTEMPTS] using he
      rw [h5] at h2
      simp [MakeRequest, hreg, h2]
    · simp [h3]
    · simp

theorem MakeRequest_retry_budget_witness :
    connected.conn ≠ none ∧
    (∃ self2,
      MakeRequest connected request7 (some 1) 0 (.ok [9, 9]) flaky2 = .ok (self2, none) ∧
      self2.requestBuffer.lookup 7 = some ⟨0, 1⟩) ∧
    (∃ self2,
      MakeRequest connected request7 (some 1) 0 (.ok [9, 9]) dead = .ok (self2, some 22) ∧
      self2.requestBuffer.lookup 7 = none) := by
  refine ⟨by decide, ?_, ?_⟩
  · obtain ⟨self1, _, hrec, _⟩ :=
      MakeRequest_retry_budget connected request7 (some 1) 0 [9, 9] flaky2 (by decide)
        (fun ch old _ h => by cases h)
    obtain ⟨self2, h1, _, h3⟩ := hrec 2 (by decide) (by decide) (by decide)
    exact ⟨self2, h1, h3 1 rfl⟩
  · obtain ⟨self1, _, _, hexh⟩ :=
      MakeRequest_retry_budget connected request7 (some 1) 0 [9, 9] dead (by decide)
        (fun ch old _ h => by cases h)
    obtain ⟨self2, e, h1, h2, _, h4⟩ := hexh (by decide)
    have he : e = 22 := by
      have : (dead 2).write.err = some 22 := by decide
      rw [this] at h2
      exact (Option.some.inj h2).symm
    subst he
    exact ⟨self2, h1, h4⟩

/-- C8, as the claim states it, fails. First: identifier 7 is registered with
the open channel 1; `MakeRequest` for 7 with the same channel 1 and a failing
encoding returns the encoding error, but the sink it was given is closed
afterwards (the registration step closed it as the displaced sink) while
still registered. Second: when the entry for 7 holds a closed sink,
`MakeRequest` for 7 with a new sink and a failing encoding panics in the
registration step and does not return the encoding error. -/
theorem MakeRequest_encode_error_closes_sink :
    (pending7.requestBuffer.lookup 7 = some ⟨0, 1⟩ ∧
      (pending7.chans 1).closed = false ∧
      MakeRequest pending7 request7 (some 1) 1 (.error 3) dead = .ok (reRegistered7, some 3) ∧
      reRegistered7.requestBuffer.lookup 7 = some ⟨1, 1⟩ ∧
      (reRegistered7.chans 1).closed = true) ∧
    (reRegistered7.requestBuffer.lookup 7 = some ⟨1, 1⟩ ∧
      MakeRequest reRegistered7 request7 (some 2) 2 (.error 3) dead =
        .error .closeOfClosedChannel) := by
  exact ⟨⟨by decide, by decide, rfl, by decide, by decide⟩, ⟨by decide, rfl⟩⟩

/-- C8, amended: for a request whose encoding fails with `err`, made on a
client in whose registry the entry displaced by the registration step, if
any, holds an open sink: `MakeRequest` returns `err` right after the
registration step, whatever the transport would have done, and the client is
exactly as the registration step left it: nothing was written, closed on the
transport or dialed, the connection and the gate are untouched; with a
non-nil sink the entry for the identifier of the request holds that sink,
and unless that sink was itself the sink of the displaced entry it is
exactly as before the call, so a sink that was open is not closed. -/
theorem MakeRequest_encode_error (self : Client) (request : Request)
    (responseStream : Option Nat) (now : Int) (err : Error) (env : Nat → Attempt)
    (hsafe : ∀ ch old, responseStream = some ch →
      self.requestBuffer.lookup request.Id = some old →
      (self.chans old.responseChan).closed = false) :
    ∃ self1, register self request.Id responseStream now = .ok self1 ∧
      MakeRequest self request responseStream now (.error err) env = .ok (self1, some err) ∧
      self1.net = self.net ∧ self1.conn = self.conn ∧
      self1.reconnecting = self.reconnecting ∧
      (∀ ch, responseStream = some ch →
        self1.requestBuffer.lookup request.Id = some ⟨now, ch⟩ ∧
        ((∀ old, self.requestBuffer.lookup request.Id = some old → old.responseChan ≠ ch) →
          self1.chans ch = self.chans ch ∧
          ((self.chans ch).closed = false → (self1.chans ch).closed = false))) := by
  obtain ⟨self1, hreg⟩ := register_ok self request.Id responseStream now hsafe
  obtain ⟨h1, h2, h3⟩ := register_frame self self1 request.Id responseStream now hreg
  refine ⟨self1, hreg, by simp [MakeRequest, hreg], h1, h2, h3, ?_⟩
  intro ch hch
  subst hch
  refine ⟨register_lookup self self1 request.Id ch now hreg, fun hne => ?_⟩
  have hc := register_chans_other self self1 request.Id ch now hreg hne
  exact ⟨hc, fun ho => by rw [hc]; exact ho⟩

theorem MakeRequest_encode_error_witness :
    register Client.init request7.Id (some 1) 0 = .ok pending7 ∧
    MakeRequest Client.init request7 (some 1) 0 (.error 3) dead = .ok (pending7, some 3) ∧
    pending7.net = [] ∧ pending7.conn = none ∧
    pending7.requestBuffer.lookup 7 = some ⟨0, 1⟩ ∧
    (pending7.chans 1).closed = false := by
  obtain ⟨self1, hreg, h1, h2, h3, _, h5⟩ :=
    MakeRequest_encode_error Client.init request7 (some 1) 0 3 dead
      (fun ch old _ h => by cases h)
  have e1 : self1 = pending7 := by
    have : register Client.init request7.Id (some 1) 0 = .ok pending7 := rfl
    rw [this] at hreg
    exact (Except.ok.inj hreg).symm
  subst e1
  exact ⟨hreg, h1, h2, h3, (h5 1 rfl).1,
    ((h5 1 rfl).2 (fun old h => by cases h)).2 rfl⟩

/-! ## The registry invariant under dispatch -/

/-- Under the registry invariant a dispatch does not panic; it describes the
new registry and the new channel heap. -/
theorem sendResponse_inv (self : Client) (r : Response) (hinv : RegistryInv self) :
    ∃ self1, sendResponse self r = .ok self1 ∧ RegistryInv self1 ∧
      (∀ k, self1.requestBuffer.lookup k =
        if k = r.RequestId ∧ isTerminal r.Type_ = true then none
        else self.requestBuffer.lookup k) ∧
      (∀ req, self.requestBuffer.lookup r.RequestId = some req →
        self1.chans req.responseChan =
          ⟨isTerminal r.Type_, (self.chans req.responseChan).received ++ [r]⟩) ∧
      (∀ ch, (∀ req, self.requestBuffer.lookup r.RequestId = some req → req.responseChan ≠ ch) →
        self1.chans ch = self.chans ch) := by
  obtain ⟨hopen, hinj⟩ := hinv
  cases hl : self.requestBuffer.lookup r.RequestId with
  | none =>
    refine ⟨self, sendResponse_absent self r hl, ⟨hopen, hinj⟩, ?_, ?_, ?_⟩
    · intro k
      split
      · rename_i hk; rw [hk.1, hl]
      · rfl
    · intro req h; cases h
    · intro ch _; rfl
  | some req =>
    have ho := hopen _ _ hl
    by_cases hterm : r.Type_ = .END_STREAM ∨ r.Type_ = .WRITE_OK
    · have ht : isTerminal r.Type_ = true := (terminal_iff _).1 hterm
      refine ⟨_, sendResponse_terminal self r req hl hterm ho, ⟨?_, ?_⟩, ?_, ?_, ?_⟩
      · intro k req1 hk
        simp only [lookup_erase_eq] at hk
        split at hk
        · cases hk
        · rename_i hne
          have hc : req1.responseChan ≠ req.responseChan := fun hc =>
            hne (hinj k r.RequestId req1 req hk hl hc)
          simp only [Function.update_noteq hc]
          exact hopen k req1 hk
      · intro k1 k2 req1 req2 h1 h2 hc
        simp only [lookup_erase_eq] at h1 h2
        split at h1
        · cases h1
        · split at h2
          · cases h2
          · exact hinj k1 k2 req1 req2 h1 h2 hc
      · intro k
        simp only [lookup_erase_eq, ht, and_true]
      · intro req1 h1
        cases h1
        simp [ht]
      · intro ch hch
        simp only
        exact Function.update_noteq (hch req rfl).symm _ _
    · have ht : isTerminal r.Type_ = false := by
        cases h : isTerminal r.Type_
        · rfl
        · exact absurd ((terminal_iff _).2 h) hterm
      refine ⟨_, sendResponse_stream self r req hl hterm ho, ⟨?_, ?_⟩, ?_, ?_, ?_⟩
      · intro k req1 hk
        simp only at hk ⊢
        by_cases hc : req1.responseChan = req.responseChan
        · rw [hc]; simp
        · simp only [Function.update_noteq hc]
          exact hopen k req1 hk
      · exact hinj
      · intro k
        simp [ht]
      · intro req1 h1
        cases h1
        simp [ht]
      · intro ch hch
        simp only
        exact Function.update_noteq (hch req rfl).symm _ _

/-- A dispatch never adds an entry, and a terminal one leaves none under its
identifier. -/
theorem sendResponse_lookup (self self1 : Client) (r : Response)
    (h : sendResponse self r = .ok self1) (k : Nat) :
    (self1.requestBuffer.lookup k = none ∨
      self1.requestBuffer.lookup k = self.requestBuffer.lookup k) ∧
    (k = r.RequestId → isTerminal r.Type_ = true → self1.requestBuffer.lookup k = none) := by
  unfold sendResponse at h
  split at h
  · rename_i hl
    cases h
    exact ⟨Or.inr rfl, fun hk _ => by rw [hk, hl]⟩
  · split at h
    · cases h
    · split at h
      · split at h
        · cases h
        · cases h
          simp only [lookup_erase_eq]
          constructor
          · by_cases hk : k = r.RequestId
            · left; simp [hk]
            · right; simp [hk]
          · intro hk _; simp [hk]
      · rename_i hnt
        cases h
        refine ⟨Or.inr rfl, fun _ ht => absurd ((terminal_iff _).2 ht) hnt⟩

theorem dispatchAll_append (self : Client) (l1 l2 : List Response) :
    dispatchAll self (l1 ++ l2) =
      match dispatchAll self l1 with
      | .error p => .error p
      | .ok mid => dispatchAll mid l2 := by
  induction l1 generalizing self with
  | nil => rfl
  | cons r l1 ih =>
    simp only [List.cons_append, dispatchAll]
    cases sendResponse self r with
    | error p => rfl
    | ok self1 => exact ih self1

/-- Once a terminal response for `id` has been dispatched, the registry
holds no entry for `id` for the rest of the sequence. -/
theorem dispatchAll_retired (id : Nat) (l : List Response) :
    ∀ (self mid : Client), dispatchAll self l = .ok mid →
    (self.requestBuffer.lookup id = none ∨
      ∃ t ∈ l, t.RequestId = id ∧ isTerminal t.Type_ = true) →
    mid.requestBuffer.lookup id = none := by
  induction l with
  | nil =>
    intro self mid h hc
    cases h
    rcases hc with hc | ⟨t, ht, _⟩
    · exact hc
    · cases ht
  | cons r l ih =>
    intro self mid h hc
    simp only [dispatchAll] at h
    cases hs : sendResponse self r with
    | error p => rw [hs] at h; cases h
    | ok self1 =>
      rw [hs] at h
      obtain ⟨h1, h2⟩ := sendResponse_lookup self self1 r hs id
      apply ih self1 mid h
      rcases hc with hc | ⟨t, ht, hid, hterm⟩
      · left
        rcases h1 with h1 | h1
        · exact h1
        · rw [h1, hc]
      · rcases List.mem_cons.1 ht with rfl | ht
        · left; exact h2 hid.symm hterm
        · right; exact ⟨t, ht, hid, hterm⟩

/-- A channel that is the sink of no entry is not touched by a sequence of
dispatches. -/
theorem dispatchAll_untouched (s : Nat) (rs : List Response) :
    ∀ (self : Client), RegistryInv self →
    (∀ k req, self.requestBuffer.lookup k = some req → req.responseChan ≠ s) →
    ∃ self1, dispatchAll self rs = .ok self1 ∧ self1.chans s = self.chans s := by
  induction rs with
  | nil => intro self _ _; exact ⟨self, rfl, rfl⟩
  | cons r rs ih =>
    intro self hinv hno
    obtain ⟨self1, h1, hinv1, hlook, _, hch⟩ := sendResponse_inv self r hinv
    have hno1 : ∀ k req, self1.requestBuffer.lookup k = some req → req.responseChan ≠ s := by
      intro k req hk
      rw [hlook] at hk
      split at hk
      · cases hk
      · exact hno k req hk
    obtain ⟨self2, h2, h3⟩ := ih self1 hinv1 hno1
    refine ⟨self2, ?_, ?_⟩
    · simp only [dispatchAll, h1]; exact h2
    · rw [h3]
      exact hch s (fun req hreq => hno _ req hreq)

/-- The sink registered under `id` receives the responses for `id` in order,
up to and including the first terminal one. -/
theorem dispatchAll_received (id : Nat) (rs : List Response) :
    ∀ (self : Client) (req : runningRequest), RegistryInv self →
    self.requestBuffer.lookup id = some req →
    ∃ self1, dispatchAll self rs = .ok self1 ∧
      (self1.chans req.responseChan).received =
        (self.chans req.responseChan).received ++
          throughFirstTerminal (rs.filter (fun r => r.RequestId = id)) := by
  induction rs with
  | nil => intro self req _ _; exact ⟨self, rfl, by simp [throughFirstTerminal]⟩
  | cons r rs ih =>
    intro self req hinv hreg
    obtain ⟨self1, h1, hinv1, hlook, hsink, hch⟩ := sendResponse_inv self r hinv
    by_cases hid : r.RequestId = id
    · have hreg1 : self.requestBuffer.lookup r.RequestId = some req := by rw [hid]; exact hreg
      have hs := hsink req hreg1
      cases ht : isTerminal r.Type_ with
      | true =>
        have hno1 : ∀ k req1, self1.requestBuffer.lookup k = some req1 →
            req1.responseChan ≠ req.responseChan := by
          intro k req1 hk hc
          rw [hlook] at hk
          split at hk
          · cases hk
          · rename_i hne
            have := hinv.2 k r.RequestId req1 req hk hreg1 hc
            exact hne ⟨this, ht⟩
        obtain ⟨self2, h2, h3⟩ := dispatchAll_untouched req.responseChan rs self1 hinv1 hno1
        refine ⟨self2, ?_, ?_⟩
        · simp only [dispatchAll, h1]; exact h2
        · rw [h3, hs]
          simp [List.filter_cons, hid, throughFirstTerminal, ht]
      | false =>
        have hreg2 : self1.requestBuffer.lookup id = some req := by
          rw [hlook]; simp [ht, hreg]
        obtain ⟨self2, h2, h3⟩ := ih self1 req hinv1 hreg2
        refine ⟨self2, ?_, ?_⟩
        · simp only [dispatchAll, h1]; exact h2
        · rw [h3, hs]
          simp [List.filter_cons, hid, throughFirstTerminal, ht]
    · have hreg2 : self1.requestBuffer.lookup id = some req := by
        rw [hlook]
        have : ¬ (id = r.RequestId ∧ isTerminal r.Type_ = true) := fun h => hid h.1.symm
        simp [this, hreg]
      have hs : self1.chans req.responseChan = self.chans req.responseChan := by
        apply hch
        intro req1 h1 hc
        exact hid (hinv.2 r.RequestId id req1 req h1 hreg hc)
      obtain ⟨self2, h2, h3⟩ := ih self1 req hinv1 hreg2
      refine ⟨self2, ?_, ?_⟩
      · simp only [dispatchAll, h1]; exact h2
      · rw [h3, hs]
        simp [List.filter_cons, hid]

theorem pending7_inv : RegistryInv pending7 := by
  constructor
  · intro k req _
    rfl
  · intro k1 k2 req1 req2 h1 h2 _
    have e : ∀ k, pending7.requestBuffer.lookup k = if k = 7 then some ⟨0, 1⟩ else none := by
      intro k
      show AList.lookup k (AList.insert 7 (⟨0, 1⟩ : runningRequest) (∅ : RequestBuffer)) = _
      rw [lookup_insert_eq, AList.lookup_empty]
    rw [e] at h1 h2
    split at h1
    · split at h2
      · omega
      · cases h2
    · cases h1

/-- C2, as the claim states it, fails. First: identifier 7 is registered to
sink 1, and so is identifier 8; the one response dispatched carries 8, yet
sink 1 receives it, while the responses carrying 7 are none. Second:
identifier 7 is registered to sink 1 and two other identifiers share sink 2;
the terminal response for the one closes sink 2, the response for the other
panics, and the response carrying 7 that follows is never dispatched. Third:
identifier 7 is registered to a sink that is closed; the response carrying 7
is not received, the send panics. -/
theorem dispatchAll_shared_sink_receives_other :
    (shared78.requestBuffer.lookup 7 = some ⟨0, 1⟩ ∧
      [item8].filter (fun r => r.RequestId = 7) = [] ∧
      ∃ self1, dispatchAll shared78 [item8] = .ok self1 ∧
        (self1.chans 1).received = [item8] ∧
        (self1.chans 1).received ≠
          (shared78.chans 1).received ++
            throughFirstTerminal ([item8].filter (fun r => r.RequestId = 7))) ∧
    (shared89.requestBuffer.lookup 7 = some ⟨0, 1⟩ ∧
      dispatchAll shared89 [⟨8, .END_STREAM, []⟩, ⟨9, .STREAM_ITEM, []⟩, item7] =
        .error .sendOnClosedChannel) ∧
    (closed7.requestBuffer.lookup 7 = some ⟨0, 1⟩ ∧
      dispatchAll closed7 [item7] = .error .sendOnClosedChannel) := by
  refine ⟨⟨by decide, by decide, _, rfl, by decide, by decide⟩, ⟨by decide, rfl⟩,
    ⟨by decide, rfl⟩⟩

/-- C2, amended: in a registry where `id` is registered to a sink, every
registered sink is open and no sink is registered under two identifiers,
dispatching a sequence of responses through `sendResponse` does not panic and
the sink receives exactly the responses carrying `id`, in dispatch order, up
to and including the first one of type `END_STREAM` or `WRITE_OK`. At every
point of the sequence a response whose identifier has no entry leaves the
client (registry and all channels) unchanged, and once a terminal response
for `id` has been dispatched `id` has no entry. -/
theorem dispatchAll_delivers_in_order (self : Client) (id : Nat) (req : runningRequest)
    (rs : List Response)
    (hinv : RegistryInv self)
    (hreg : self.requestBuffer.lookup id = some req) :
    ∃ self1, dispatchAll self rs = .ok self1 ∧
      (self1.chans req.responseChan).received =
        (self.chans req.responseChan).received ++
          throughFirstTerminal (rs.filter (fun r => r.RequestId = id)) ∧
      (∀ pre r post, rs = pre ++ r :: post →
        ∃ mid, dispatchAll self pre = .ok mid ∧
          (mid.requestBuffer.lookup r.RequestId = none → sendResponse mid r = .ok mid) ∧
          ((∃ t ∈ pre, t.RequestId = id ∧ isTerminal t.Type_ = true) →
            mid.requestBuffer.lookup id = none)) := by
  obtain ⟨self1, h1, h2⟩ := dispatchAll_received id rs self req hinv hreg
  refine ⟨self1, h1, h2, ?_⟩
  intro pre r post hsplit
  subst hsplit
  rw [dispatchAll_append] at h1
  cases hm : dispatchAll self pre with
  | error p => rw [hm] at h1; cases h1
  | ok mid =>
    refine ⟨mid, rfl, sendResponse_absent mid r, ?_⟩
    intro hterm
    exact dispatchAll_retired id pre self mid hm (Or.inr hterm)

theorem dispatchAll_delivers_in_order_witness :
    RegistryInv pending7 ∧ pending7.requestBuffer.lookup 7 = some ⟨0, 1⟩ ∧
    ∃ self1, dispatchAll pending7 [item7, ⟨9, .END_STREAM, []⟩, end7, item7] = .ok self1 ∧
      (self1.chans 1).received = [item7, end7] ∧
      (∀ pre r post, [item7, ⟨9, .END_STREAM, []⟩, end7, item7] = pre ++ r :: post →
        ∃ mid, dispatchAll pending7 pre = .ok mid ∧
          (mid.requestBuffer.lookup r.RequestId = none → sendResponse mid r = .ok mid) ∧
          ((∃ t ∈ pre, t.RequestId = 7 ∧ isTerminal t.Type_ = true) →
            mid.requestBuffer.lookup 7 = none)) :=
  ⟨pending7_inv, by decide,
    dispatchAll_delivers_in_order pending7 7 ⟨0, 1⟩
      [item7, ⟨9, .END_STREAM, []⟩, end7, item7] pending7_inv (by decide)⟩

/-! ## Sinks are never closed twice -/

/-- Removing entries and leaving the channels alone keeps a client safe. -/
theorem SafeFor.shrink (self self1 : Client) (future : List Nat) (h : SafeFor self future)
    (hch : self1.chans = self.chans)
    (hsub : ∀ k req, self1.requestBuffer.lookup k = some req →
      self.requestBuffer.lookup k = some req) :
    SafeFor self1 future := by
  obtain ⟨⟨hopen, hinj⟩, hnd, hfut, hnot⟩ := h
  refine ⟨⟨?_, ?_⟩, hnd, ?_, ?_⟩
  · intro k req hk
    rw [hch]
    exact hopen k req (hsub k req hk)
  · intro k1 k2 req1 req2 h1 h2 hc
    exact hinj k1 k2 req1 req2 (hsub _ _ h1) (hsub _ _ h2) hc
  · intro ch hmem
    rw [hch]
    exact hfut ch hmem
  · intro k req hk
    exact hnot k req (hsub k req hk)

theorem register_safe (self : Client) (id ch : Nat) (now : Int) (rest : List Nat)
    (h : SafeFor self (ch :: rest)) :
    ∃ self1, register self id (some ch) now = .ok self1 ∧ SafeFor self1 rest := by
  obtain ⟨⟨hopen, hinj⟩, hnd, hfut, hnot⟩ := h
  have hchopen : (self.chans ch).closed = false := hfut ch (List.mem_cons_self _ _)
  have hchnew : ∀ k req, self.requestBuffer.lookup k = some req → req.responseChan ≠ ch :=
    fun k req hk hc => hnot k req hk (hc ▸ List.mem_cons_self _ _)
  have hnd2 : rest.Nodup := (List.nodup_cons.1 hnd).2
  have hchrest : ch ∉ rest := (List.nodup_cons.1 hnd).1
  have hinj1 : ∀ k1 k2 req1 req2,
      (self.requestBuffer.insert id ⟨now, ch⟩).lookup k1 = some req1 →
      (self.requestBuffer.insert id ⟨now, ch⟩).lookup k2 = some req2 →
      req1.responseChan = req2.responseChan → k1 = k2 := by
    intro k1 k2 req1 req2 h1 h2 hc
    simp only [lookup_insert_eq] at h1 h2
    split at h1
    · rename_i e1
      cases h1
      split at h2
      · rename_i e2; rw [e1, e2]
      · exact absurd hc.symm (hchnew k2 req2 h2)
    · split at h2
      · cases h2
        exact absurd hc (hchnew k1 req1 h1)
      · exact hinj k1 k2 req1 req2 h1 h2 hc
  have hnot1 : ∀ k req, (self.requestBuffer.insert id ⟨now, ch⟩).lookup k = some req →
      req.responseChan ∉ rest := by
    intro k req hk
    simp only [lookup_insert_eq] at hk
    split at hk
    · cases hk; exact hchrest
    · exact fun hm => hnot k req hk (List.mem_cons_of_mem _ hm)
  cases hl : self.requestBuffer.lookup id with
  | none =>
    refine ⟨_, register_fresh self id ch now hl, ⟨?_, hinj1⟩, hnd2, ?_, hnot1⟩
    · intro k req hk
      simp only [lookup_insert_eq] at hk
      split at hk
      · cases hk; exact hchopen
      · exact hopen k req hk
    · intro c hc
      exact hfut c (List.mem_cons_of_mem _ hc)
  | some oldReq =>
    have ho := hopen id oldReq hl
    refine ⟨_, register_collision self id ch now oldReq hl ho, ⟨?_, hinj1⟩, hnd2, ?_, hnot1⟩
    · intro k req hk
      simp only [lookup_insert_eq] at hk
      simp only
      split at hk
      · cases hk
        simp only
        rw [Function.update_noteq (hchnew id oldReq hl).symm]
        exact hchopen
      · rename_i hne
        have hc : req.responseChan ≠ oldReq.responseChan := fun hc =>
          hne (hinj k id req oldReq hk hl hc)
        rw [Function.update_noteq hc]
        exact hopen k req hk
    · intro c hc
      simp only
      have hne : c ≠ oldReq.responseChan := fun e =>
        hnot id oldReq hl (e ▸ List.mem_cons_of_mem _ hc)
      rw [Function.update_noteq hne]
      exact hfut c (List.mem_cons_of_mem _ hc)

theorem init_safe (future : List Nat) (h : future.Nodup) : SafeFor Client.init future := by
  refine ⟨⟨?_, ?_⟩, h, ?_, ?_⟩
  · intro k req hk; cases hk
  · intro k1 k2 req1 req2 h1; cases h1
  · intro ch _; rfl
  · intro k req hk; cases hk

theorem registeredSinks_append (l1 l2 : List Op) :
    registeredSinks (l1 ++ l2) = registeredSinks l1 ++ registeredSinks l2 := by
  induction l1 with
  | nil => rfl
  | cons op l1 ih =>
    cases op with
    | register id responseStream now =>
      cases responseStream with
      | none => simpa [registeredSinks] using ih
      | some ch => simp [registeredSinks, ih]
    | exhaust id => simpa [registeredSinks] using ih
    | sweep now => simpa [registeredSinks] using ih

theorem exhaust_sub (self : Client) (id k : Nat) (req : runningRequest)
    (hk : (exhaust self id).requestBuffer.lookup k = some req) :
    self.requestBuffer.lookup k = some req := by
  simp only [exhaust, lookup_erase_eq] at hk
  split at hk
  · cases hk
  · exact hk

theorem sweep_sub (self : Client) (now : Int) (k : Nat) (req : runningRequest)
    (hk : (sweep self now).requestBuffer.lookup k = some req) :
    self.requestBuffer.lookup k = some req := by
  rw [sweep_lookup] at hk
  cases hl : self.requestBuffer.lookup k with
  | none => rw [hl] at hk; cases hk
  | some req0 =>
    rw [hl] at hk
    simp only [Option.filter] at hk
    split at hk
    · exact hk
    · cases hk

/-- An operation under the lock keeps a client safe. -/
theorem apply_safe (self : Client) (op : Op) (rest : List Nat)
    (h : SafeFor self (registeredSinks [op] ++ rest)) :
    ∃ self1, op.apply self = .ok self1 ∧ SafeFor self1 rest := by
  cases op with
  | register id responseStream now =>
    cases responseStream with
    | none => exact ⟨self, rfl, h⟩
    | some ch => exact register_safe self id ch now _ h
  | exhaust id =>
    exact ⟨exhaust self id, rfl, SafeFor.shrink self _ _ h rfl (exhaust_sub self id)⟩
  | sweep now =>
    exact ⟨sweep self now, rfl,
      SafeFor.shrink self _ _ h (sweep_chans self now).1 (sweep_sub self now)⟩

theorem runOps_safe (ops : List Op) :
    ∀ (self : Client) (rest : List Nat), SafeFor self (registeredSinks ops ++ rest) →
    ∃ self1, runOps self ops = .ok self1 ∧ SafeFor self1 rest := by
  induction ops with
  | nil => intro self rest h; exact ⟨self, rfl, h⟩
  | cons op ops ih =>
    intro self rest h
    rw [show op :: ops = [op] ++ ops from rfl, registeredSinks_append, List.append_assoc] at h
    obtain ⟨self1, h1, hs⟩ := apply_safe self op _ h
    obtain ⟨self2, h2, hs2⟩ := ih self1 rest hs
    exact ⟨self2, by simp only [runOps, h1]; exact h2, hs2⟩

/-- With no operation inside it, the split dispatch is the method. -/
theorem dispatchSplit_alone (self : Client) (response : Response) :
    dispatchSplit self response [] [] [] = sendResponse self response := by
  unfold dispatchSplit sendResponse
  cases self.requestBuffer.lookup response.RequestId with
  | none => rfl
  | some req =>
    simp only [runOps, List.append_nil]

theorem flight_of_safe (self : Client) (future : List Nat) (id : Nat) (req : runningRequest)
    (h : SafeFor self future) (hl : self.requestBuffer.lookup id = some req) :
    FlightInv self future id req.responseChan ∧
    (self.chans req.responseChan).closed = false := by
  obtain ⟨⟨hopen, hinj⟩, hnd, hfut, hnot⟩ := h
  refine ⟨⟨?_, ?_, hinj, hnd, hfut, hnot, hnot id req hl⟩, hopen id req hl⟩
  · intro k req1 hk hne
    exact ⟨hopen k req1 hk, fun hc => hne (hinj k id req1 req hk hl hc)⟩
  · intro req1 h1
    rw [hl] at h1
    cases h1
    rfl

theorem safe_of_flight (self : Client) (future : List Nat) (id c : Nat)
    (h : FlightInv self future id c)
    (ho : ∀ req, self.requestBuffer.lookup id = some req → (self.chans c).closed = false) :
    SafeFor self future := by
  obtain ⟨hA, hB, hinj, hnd, hfut, hnot, _⟩ := h
  refine ⟨⟨?_, hinj⟩, hnd, hfut, hnot⟩
  intro k req hk
  by_cases e : k = id
  · subst e
    rw [hB req hk]
    exact ho req hk
  · exact (hA k req hk e).1

/-- Removing entries and changing no channel but `c` keeps the invariant of
a dispatch under way. -/
theorem FlightInv.shrink_flight (self self1 : Client) (future : List Nat) (id c : Nat)
    (h : FlightInv self future id c)
    (hch : ∀ ch, ch ≠ c → self1.chans ch = self.chans ch)
    (hsub : ∀ k req, self1.requestBuffer.lookup k = some req →
      self.requestBuffer.lookup k = some req) :
    FlightInv self1 future id c := by
  obtain ⟨hA, hB, hinj, hnd, hfut, hnot, hc⟩ := h
  refine ⟨?_, ?_, ?_, hnd, ?_, ?_, hc⟩
  · intro k req hk hne
    obtain ⟨h1, h2⟩ := hA k req (hsub k req hk) hne
    exact ⟨by rw [hch _ h2]; exact h1, h2⟩
  · intro req hk
    exact hB req (hsub id req hk)
  · intro k1 k2 req1 req2 h1 h2 he
    exact hinj k1 k2 req1 req2 (hsub _ _ h1) (hsub _ _ h2) he
  · intro ch hmem
    have : ch ≠ c := fun e => hc (e ▸ hmem)
    rw [hch ch this]
    exact hfut ch hmem
  · intro k req hk
    exact hnot k req (hsub k req hk)

theorem flight_register (self : Client) (id1 ch : Nat) (now : Int) (rest : List Nat)
    (id c : Nat) (h : FlightInv self (ch :: rest) id c) (hne : id1 ≠ id) :
    ∃ self1, register self id1 (some ch) now = .ok self1 ∧ FlightInv self1 rest id c ∧
      self1.chans c = self.chans c := by
  obtain ⟨hA, hB, hinj, hnd, hfut, hnot, hc⟩ := h
  have hchopen : (self.chans ch).closed = false := hfut ch (List.mem_cons_self _ _)
  have hchnew : ∀ k req, self.requestBuffer.lookup k = some req → req.responseChan ≠ ch :=
    fun k req hk e => hnot k req hk (e ▸ List.mem_cons_self _ _)
  have hnd2 : rest.Nodup := (List.nodup_cons.1 hnd).2
  have hchrest : ch ∉ rest := (List.nodup_cons.1 hnd).1
  have hcch : ch ≠ c := fun e => hc (e ▸ List.mem_cons_self _ _)
  have hcrest : c ∉ rest := fun hm => hc (List.mem_cons_of_mem _ hm)
  have hB1 : ∀ req, (self.requestBuffer.insert id1 ⟨now, ch⟩).lookup id = some req →
      req.responseChan = c := by
    intro req hk
    rw [AList.lookup_insert_ne (Ne.symm hne)] at hk
    exact hB req hk
  have hinj1 : ∀ k1 k2 req1 req2,
      (self.requestBuffer.insert id1 ⟨now, ch⟩).lookup k1 = some req1 →
      (self.requestBuffer.insert id1 ⟨now, ch⟩).lookup k2 = some req2 →
      req1.responseChan = req2.responseChan → k1 = k2 := by
    intro k1 k2 req1 req2 h1 h2 he
    simp only [lookup_insert_eq] at h1 h2
    split at h1
    · rename_i e1
      cases h1
      split at h2
      · rename_i e2; rw [e1, e2]
      · exact absurd he.symm (hchnew k2 req2 h2)
    · split at h2
      · cases h2
        exact absurd he (hchnew k1 req1 h1)
      · exact hinj k1 k2 req1 req2 h1 h2 he
  have hnot1 : ∀ k req, (self.requestBuffer.insert id1 ⟨now, ch⟩).lookup k = some req →
      req.responseChan ∉ rest := by
    intro k req hk
    simp only [lookup_insert_eq] at hk
    split at hk
    · cases hk; exact hchrest
    · exact fun hm => hnot k req hk (List.mem_cons_of_mem _ hm)
  cases hl : self.requestBuffer.lookup id1 with
  | none =>
    refine ⟨_, register_fresh self id1 ch now hl, ⟨?_, hB1, hinj1, hnd2, ?_, hnot1, hcrest⟩, rfl⟩
    · intro k req hk hk2
      simp only [lookup_insert_eq] at hk
      split at hk
      · cases hk; exact ⟨hchopen, hcch⟩
      · exact hA k req hk hk2
    · intro x hx
      exact hfut x (List.mem_cons_of_mem _ hx)
  | some oldReq =>
    obtain ⟨ho, hoc⟩ := hA id1 oldReq hl hne
    refine ⟨_, register_collision self id1 ch now oldReq hl ho,
      ⟨?_, hB1, hinj1, hnd2, ?_, hnot1, hcrest⟩, ?_⟩
    · intro k req hk hk2
      simp only [lookup_insert_eq] at hk
      simp only
      split at hk
      · cases hk
        simp only
        rw [Function.update_noteq (hchnew id1 oldReq hl).symm]
        exact ⟨hchopen, hcch⟩
      · rename_i hne1
        have hx : req.responseChan ≠ oldReq.responseChan := fun e =>
          hne1 (hinj k id1 req oldReq hk hl e)
        rw [Function.update_noteq hx]
        exact hA k req hk hk2
    · intro x hx
      simp only
      have hx2 : x ≠ oldReq.responseChan := fun e =>
        hnot id1 oldReq hl (e ▸ List.mem_cons_of_mem _ hx)
      rw [Function.update_noteq hx2]
      exact hfut x (List.mem_cons_of_mem _ hx)
    · simp only
      exact Function.update_noteq (Ne.symm hoc) _ _

theorem flight_apply (self : Client) (op : Op) (rest : List Nat) (id c : Nat)
    (h : FlightInv self (registeredSinks [op] ++ rest) id c)
    (hq : op.registers id = false) :
    ∃ self1, op.apply self = .ok self1 ∧ FlightInv self1 rest id c ∧
      self1.chans c = self.chans c := by
  cases op with
  | register id1 responseStream now =>
    cases responseStream with
    | none => exact ⟨self, rfl, h, rfl⟩
    | some ch =>
      have hne : id1 ≠ id := by
        intro e
        simp [Op.registers, e] at hq
      exact flight_register self id1 ch now rest id c h hne
  | exhaust id1 =>
    exact ⟨exhaust self id1, rfl,
      FlightInv.shrink_flight self _ _ id c h (fun _ _ => rfl) (exhaust_sub self id1), rfl⟩
  | sweep now =>
    refine ⟨sweep self now, rfl,
      FlightInv.shrink_flight self _ _ id c h (fun _ _ => by rw [(sweep_chans self now).1])
        (sweep_sub self now), by rw [(sweep_chans self now).1]⟩

theorem flight_runOps (ops : List Op) (id c : Nat) :
    ∀ (self : Client) (rest : List Nat), FlightInv self (registeredSinks ops ++ rest) id c →
    (∀ o ∈ ops, o.registers id = false) →
    ∃ self1, runOps self ops = .ok self1 ∧ FlightInv self1 rest id c ∧
      self1.chans c = self.chans c := by
  induction ops with
  | nil => intro self rest h _; exact ⟨self, rfl, h, rfl⟩
  | cons op ops ih =>
    intro self rest h hq
    rw [show op :: ops = [op] ++ ops from rfl, registeredSinks_append, List.append_assoc] at h
    obtain ⟨self1, h1, hs, hc1⟩ := flight_apply self op _ id c h (hq op (List.mem_cons_self _ _))
    obtain ⟨self2, h2, hs2, hc2⟩ := ih self1 rest hs
      (fun o ho => hq o (List.mem_cons_of_mem _ ho))
    exact ⟨self2, by simp only [runOps, h1]; exact h2, hs2, by rw [hc2, hc1]⟩


theorem chanSend_open (chans : Nat → Chan) (c : Nat) (r : Response)
    (h : (chans c).closed = false) :
    chanSend chans c r = .ok (Function.update chans c ⟨false, (chans c).received ++ [r]⟩) := by
  simp [chanSend, h]

theorem chanClose_open (chans : Nat → Chan) (c : Nat) (h : (chans c).closed = false) :
    chanClose chans c = .ok (Function.update chans c ⟨true, (chans c).received⟩) := by
  simp [chanClose, h]

/-- A dispatch with operations of other goroutines inside it keeps a client
safe when none of them registers the identifier of the response. -/
theorem dispatchSplit_safe (self : Client) (response : Response)
    (afterLookup afterSend afterClose : List Op) (rest : List Nat)
    (h : SafeFor self (registeredSinks (afterLookup ++ afterSend ++ afterClose) ++ rest))
    (hqL : ∀ o ∈ afterLookup, o.registers response.RequestId = false)
    (hqT : isTerminal response.Type_ = true →
      ∀ o ∈ afterSend ++ afterClose, o.registers response.RequestId = false) :
    ∃ self1, dispatchSplit self response afterLookup afterSend afterClose = .ok self1 ∧
      SafeFor self1 rest := by
  unfold dispatchSplit
  cases hl : self.requestBuffer.lookup response.RequestId with
  | none => exact runOps_safe _ self rest h
  | some req =>
    simp only
    obtain ⟨hF, ho⟩ := flight_of_safe self _ response.RequestId req h hl
    rw [registeredSinks_append, registeredSinks_append, List.append_assoc,
      List.append_assoc] at hF
    obtain ⟨s1, h1, hF1, hc1⟩ := flight_runOps afterLookup response.RequestId req.responseChan
      self _ hF hqL
    rw [h1]
    simp only
    have ho1 : (s1.chans req.responseChan).closed = false := by rw [hc1]; exact ho
    rw [chanSend_open _ _ _ ho1]
    simp only
    have hF1s : FlightInv { s1 with chans := (Function.update s1.chans req.responseChan
          ⟨false, (s1.chans req.responseChan).received ++ [response]⟩) }
        (registeredSinks afterSend ++ (registeredSinks afterClose ++ rest))
        response.RequestId req.responseChan :=
      FlightInv.shrink_flight s1 _ _ _ _ hF1 (fun ch hch => Function.update_noteq hch _ _)
        (fun _ _ hk => hk)
    split
    · rename_i hterm
      have hq := hqT ((terminal_iff _).1 hterm)
      have hqS : ∀ o ∈ afterSend, o.registers response.RequestId = false :=
        fun o ho => hq o (by simp [ho])
      have hqC : ∀ o ∈ afterClose, o.registers response.RequestId = false :=
        fun o ho => hq o (by simp [ho])
      obtain ⟨s2, h2, hF2, hc2⟩ := flight_runOps afterSend response.RequestId
        req.responseChan _ _ hF1s hqS
      rw [h2]
      simp only
      have ho2 : (s2.chans req.responseChan).closed = false := by
        rw [hc2]; simp
      rw [chanClose_open _ _ ho2]
      simp only
      have hF2s : FlightInv { s2 with chans := (Function.update s2.chans req.responseChan
            ⟨true, (s2.chans req.responseChan).received⟩) }
          (registeredSinks afterClose ++ rest) response.RequestId req.responseChan :=
        FlightInv.shrink_flight s2 _ _ _ _ hF2 (fun ch hch => Function.update_noteq hch _ _)
          (fun _ _ hk => hk)
      obtain ⟨s3, h3, hF3, _⟩ := flight_runOps afterClose response.RequestId
        req.responseChan _ _ hF2s hqC
      rw [h3]
      simp only
      refine ⟨_, rfl, ?_⟩
      have hF4 : FlightInv
          { s3 with requestBuffer := s3.requestBuffer.erase response.RequestId } rest
          response.RequestId req.responseChan :=
        FlightInv.shrink_flight s3 _ _ _ _ hF3 (fun _ _ => rfl) (fun k r hk => by
          simp only [lookup_erase_eq] at hk
          split at hk
          · cases hk
          · exact hk)
      exact safe_of_flight _ _ _ _ hF4 (fun r hk => by simp at hk)
    · have hS : SafeFor { s1 with chans := (Function.update s1.chans req.responseChan
            ⟨false, (s1.chans req.responseChan).received ++ [response]⟩) }
          (registeredSinks (afterSend ++ afterClose) ++ rest) := by
        rw [registeredSinks_append, List.append_assoc]
        exact safe_of_flight _ _ _ _ hF1s (fun _ _ => by simp)
      exact runOps_safe _ _ rest hS

theorem stepSinks_append (l1 l2 : List Step) :
    stepSinks (l1 ++ l2) = stepSinks l1 ++ stepSinks l2 := by
  induction l1 with
  | nil => rfl
  | cons st l1 ih => simp [stepSinks, ih]

theorem runSteps_safe (steps : List Step) :
    ∀ (self : Client), SafeFor self (stepSinks steps) →
    (∀ st ∈ steps, st.quiet = true) →
    ∃ self1, runSteps self steps = .ok self1 ∧ RegistryInv self1 := by
  induction steps with
  | nil => intro self h _; exact ⟨self, rfl, h.1⟩
  | cons st sts ih =>
    intro self h hq
    have hst : ∃ self1, st.apply self = .ok self1 ∧ SafeFor self1 (stepSinks sts) := by
      cases st with
      | op o => exact apply_safe self o _ h
      | dispatch response aL aS aC =>
        have hq1 := hq _ (List.mem_cons_self _ _)
        simp only [Step.quiet, Bool.and_eq_true, Bool.or_eq_true, List.all_eq_true,
          Bool.not_eq_true'] at hq1
        refine dispatchSplit_safe self response aL aS aC _ h hq1.1 (fun ht => ?_)
        rcases hq1.2 with hf | hall
        · rw [ht] at hf; cases hf
        · exact hall
    obtain ⟨self1, h1, hs⟩ := hst
    obtain ⟨self2, h2, hinv⟩ := ih self1 hs (fun st hst => hq st (List.mem_cons_of_mem _ hst))
    exact ⟨self2, by simp only [runSteps, h1]; exact h2, hinv⟩

/-- C7, amended: starting from the empty registry, along every run of the
client (registrations, retry exhaustions, sweeper passes and dispatches, the
operations of other goroutines being free to run after the lookup, after the
send and after the close of a dispatch) in which each sink is registered at
most once and no sink is registered under the identifier of a response while
that response is being dispatched, nothing panics: no channel is closed a
second time and nothing is sent on a closed channel; and after every prefix
of the run, no dispatch then being under way, every sink held in the
registry is open. -/
theorem runSteps_never_closes_twice (steps : List Step) (hsinks : (stepSinks steps).Nodup)
    (hquiet : ∀ st ∈ steps, st.quiet = true) (n : Nat) :
    ∃ self1, runSteps Client.init (steps.take n) = .ok self1 ∧
      ∀ k req, self1.requestBuffer.lookup k = some req →
        (self1.chans req.responseChan).closed = false := by
  have hnd : (stepSinks (steps.take n)).Nodup := by
    have h := hsinks
    rw [← List.take_append_drop n steps, stepSinks_append] at h
    exact (List.nodup_append.1 h).1
  obtain ⟨self1, h1, hinv⟩ := runSteps_safe (steps.take n) Client.init (init_safe _ hnd)
    (fun st hst => hquiet st (List.mem_of_mem_take hst))
  exact ⟨self1, h1, hinv.1⟩

theorem runSteps_never_closes_twice_witness :
    (stepSinks sampleSteps).Nodup ∧ (∀ st ∈ sampleSteps, st.quiet = true) ∧
    ∃ self1, runSteps Client.init (sampleSteps.take 5) = .ok self1 ∧
      ∀ k req, self1.requestBuffer.lookup k = some req →
        (self1.chans req.responseChan).closed = false :=
  ⟨by decide, by decide, runSteps_never_closes_twice sampleSteps (by decide) (by decide) 5⟩

/-- The run `sampleSteps` ends with the request of identifier 8 pending on
the open sink 3, with sinks 1 and 2 closed once each. -/
theorem sampleSteps_result :
    ∃ self1, runSteps Client.init sampleSteps = .ok self1 ∧
      self1.requestBuffer.lookup 8 = some ⟨6, 3⟩ ∧
      self1.requestBuffer.lookup 7 = none ∧
      self1.chans 3 = ⟨false, []⟩ ∧
      self1.chans 1 = ⟨true, [⟨7, .STREAM_ITEM, [42]⟩]⟩ ∧
      self1.chans 2 = ⟨true, [⟨7, .END_STREAM, []⟩]⟩ :=
  ⟨_, rfl, by decide, by decide, by decide, by decide, by decide⟩

/-- C7, as the claim states it, fails on two runs in which each sink is
registered once. In the first the reader looks up identifier 7 and finds
sink 1; before it sends, identifier 7 is registered with sink 2, which closes
sink 1; the send then meets a closed channel. In the second the reader has
sent a terminal response on sink 1; before it closes, identifier 7 is
registered with sink 2, which closes sink 1; the close of the reader is then
a second close. -/
theorem runSteps_race_panics :
    (stepSinks raceSend).Nodup ∧
    runSteps Client.init raceSend = .error .sendOnClosedChannel ∧
    (stepSinks raceClose).Nodup ∧
    runSteps Client.init raceClose = .error .closeOfClosedChannel := by
  exact ⟨by decide, rfl, by decide, rfl⟩


/-! ## Truncated frames -/

/-- A frame whose payload is cut short by the end of the stream is handed
to the decoder as it is. -/
theorem readFrame_short_eof (b0 b1 b2 b3 : Nat) (payload : List Nat)
    (h : payload.length < littleEndian [b0, b1, b2, b3]) :
    readFrame ⟨b0 :: b1 :: b2 :: b3 :: payload, .eof⟩ = (.decode payload, ⟨[], .eof⟩) := by
  have h2 : ¬ littleEndian [b0, b1, b2, b3] ≤ payload.length := by omega
  simp [readFrame, binaryReadUint32, ioCopyLimit, h2]

/-- A frame whose payload is cut short by a read failure makes the loop
reconnect. -/
theorem readFrame_short_failure (b0 b1 b2 b3 : Nat) (payload : List Nat) (e : Error)
    (h : payload.length < littleEndian [b0, b1, b2, b3]) :
    readFrame ⟨b0 :: b1 :: b2 :: b3 :: payload, .failure e⟩ = (.reconnect, ⟨[], .failure e⟩) := by
  have h2 : ¬ littleEndian [b0, b1, b2, b3] ≤ payload.length := by omega
  simp [readFrame, binaryReadUint32, ioCopyLimit, h2]

/-- C10, the code at the failing input: the stream carries the length 5, two
payload bytes, and then ends. `readFrame` does not fail: the two bytes are
handed to the decoder, and when the decoder accepts them the response is
dispatched to the sink of identifier 7. No reconnect happens. When the same
bytes are followed by a read failure instead, the loop reconnects. -/
theorem readFrame_truncated_at_eof :
    readFrame ⟨truncatedFrame, .eof⟩ = (.decode [1, 2], ⟨[], .eof⟩) ∧
    (∃ self1, readResponsesBody lenientDecode pending7 ⟨truncatedFrame, .eof⟩ 0 9 ⟨[], .eof⟩ =
        .ok (self1, ⟨[], .eof⟩) ∧
      (self1.chans 1).received = [⟨7, .STREAM_ITEM, [1, 2]⟩] ∧
      self1.net = [] ∧ self1.conn = none) ∧
    readFrame ⟨truncatedFrame, .failure 4⟩ = (.reconnect, ⟨[], .failure 4⟩) := by
  refine ⟨by decide, ⟨?_, ?_⟩, by decide⟩
  · exact { pending7 with
      chans := Function.update pending7.chans 1 ⟨false, [⟨7, .STREAM_ITEM, [1, 2]⟩]⟩ }
  · refine ⟨?_, ?_, rfl, rfl⟩
    · rfl
    · simp

/-! ## The reconnect gate under interleaving -/

theorem Gate.init_inv (c0 : Nat) : GateInv (Gate.init c0) := by
  refine ⟨Or.inl rfl, fun _ _ => rfl, ?_, ?_, fun _ _ => ⟨rfl, rfl⟩⟩
  · intro h; cases h
  · intro i j h; cases h

theorem redialing_update (callers : Nat → Caller) (i j : Nat) (x : Caller) :
    ((Function.update callers i x) j).pc.redialing =
      if j = i then x.pc.redialing else (callers j).pc.redialing := by
  by_cases h : j = i
  · subst h; simp
  · simp [h, Function.update_noteq h]

/-- A move that keeps the gate word and the side of the mover. -/
theorem GateInv.same_side (g g1 : Gate) (i : Nat) (x : Caller) (hinv : GateInv g)
    (hr : g1.reconnecting = g.reconnecting)
    (hcs : g1.callers = Function.update g.callers i x)
    (hx : x.pc.redialing = (g.callers i).pc.redialing)
    (hd0 : (x.pc = .start ∨ x.pc = .waiting ∨ x.pc = .returned true) →
      x.dials = 0 ∧ x.closes = 0) : GateInv g1 := by
  obtain ⟨ha, hb, he, hc, hd⟩ := hinv
  have hred : ∀ j, (g1.callers j).pc.redialing = (g.callers j).pc.redialing := by
    intro j
    rw [hcs, redialing_update]
    split
    · rename_i e; rw [e, hx]
    · rfl
  refine ⟨hr ▸ ha, ?_, ?_, ?_, ?_⟩
  · intro h j; rw [hred]; exact hb (hr ▸ h) j
  · intro h
    obtain ⟨j, hj⟩ := he (hr ▸ h)
    exact ⟨j, by rw [hred]; exact hj⟩
  · intro j k hj hk
    rw [hred] at hj hk
    exact hc j k hj hk
  · intro j hj
    rw [hcs] at hj ⊢
    by_cases e : j = i
    · subst e
      simp only [Function.update_same] at hj ⊢
      exact hd0 hj
    · simp only [Function.update_noteq e] at hj ⊢
      exact hd j hj

/-- The move that wins the gate. -/
theorem GateInv.enter (g g1 : Gate) (i : Nat) (x : Caller) (hinv : GateInv g)
    (h0 : g.reconnecting = IS_CONNECTED)
    (hr : g1.reconnecting = IS_RECONNECTING)
    (hcs : g1.callers = Function.update g.callers i x)
    (hx : x.pc = .swapped) : GateInv g1 := by
  obtain ⟨ha, hb, he, hc, hd⟩ := hinv
  have hred : ∀ j, (g1.callers j).pc.redialing = true ↔ j = i := by
    intro j
    rw [hcs, redialing_update]
    split
    · rename_i e; simp [e, hx, PC.redialing]
    · rename_i e; simp [e, hb h0 j]
  refine ⟨Or.inr hr, ?_, ?_, ?_, ?_⟩
  · intro h; rw [hr] at h; cases h
  · intro _; exact ⟨i, (hred i).2 rfl⟩
  · intro j k hj hk
    rw [(hred j).1 hj, (hred k).1 hk]
  · intro j hj
    rw [hcs] at hj ⊢
    by_cases e : j = i
    · subst e
      simp only [Function.update_same, hx] at hj
      rcases hj with hj | hj | hj <;> cases hj
    · simp only [Function.update_noteq e] at hj ⊢
      exact hd j hj

/-- The move that sets the gate back. -/
theorem GateInv.leave (g g1 : Gate) (i : Nat) (x : Caller) (hinv : GateInv g)
    (hi : (g.callers i).pc.redialing = true)
    (hr : g1.reconnecting = IS_CONNECTED)
    (hcs : g1.callers = Function.update g.callers i x)
    (hx : x.pc = .releasing) : GateInv g1 := by
  obtain ⟨ha, hb, he, hc, hd⟩ := hinv
  have hred : ∀ j, (g1.callers j).pc.redialing = false := by
    intro j
    rw [hcs, redialing_update]
    split
    · simp [hx, PC.redialing]
    · rename_i e
      cases hj : (g.callers j).pc.redialing
      · rfl
      · exact absurd (hc j i hj hi) e
  refine ⟨Or.inl hr, fun _ => hred, ?_, ?_, ?_⟩
  · intro h; rw [hr] at h; cases h
  · intro j k hj; rw [hred] at hj; cases hj
  · intro j hj
    rw [hcs] at hj ⊢
    by_cases e : j = i
    · subst e
      simp only [Function.update_same, hx] at hj
      rcases hj with hj | hj | hj <;> cases hj
    · simp only [Function.update_noteq e] at hj ⊢
      exact hd j hj

theorem Gate.step_inv (g g1 : Gate) (i : Nat) (dialOk : Bool) (c : Nat)
    (hinv : GateInv g) (h : g.step i dialOk c = some g1) : GateInv g1 := by
  have hd := hinv.2.2.2.2 i
  unfold Gate.step at h
  simp only at h
  split at h
  · rename_i hpc
    split at h
    · rename_i hsw
      cases h
      have h0 : g.reconnecting = IS_CONNECTED := by
        unfold compareAndSwap at hsw
        split at hsw
        · assumption
        · cases hsw
      exact GateInv.enter g _ i _ hinv h0 (by simp [compareAndSwap, h0]) rfl rfl
    · cases h
      exact GateInv.same_side g _ i _ hinv rfl rfl (by simp [hpc, PC.redialing])
        (fun _ => hd (Or.inl hpc))
  · rename_i hpc
    split at h
    · cases h
      exact GateInv.same_side g _ i _ hinv rfl rfl (by simp [hpc, PC.redialing])
        (fun _ => hd (Or.inr (Or.inl hpc)))
    · cases h
  · rename_i hpc
    cases h
    exact GateInv.same_side g _ i _ hinv rfl rfl (by simp [hpc, PC.redialing])
      (fun hx => by rcases hx with hx | hx | hx <;> cases hx)
  · rename_i hpc
    cases h
    exact GateInv.same_side g _ i _ hinv rfl rfl (by simp [hpc, PC.redialing])
      (fun hx => by rcases hx with hx | hx | hx <;> cases hx)
  · rename_i hpc
    split at h
    · cases h
      exact GateInv.same_side g _ i _ hinv rfl rfl (by simp [hpc, PC.redialing])
        (fun hx => by rcases hx with hx | hx | hx <;> cases hx)
    · cases h
      exact GateInv.same_side g _ i _ hinv rfl rfl (by simp [hpc, PC.redialing])
        (fun hx => by
          simp only [hpc] at hx
          rcases hx with hx | hx | hx <;> cases hx)
  · rename_i hpc
    cases h
    have hi : (g.callers i).pc.redialing = true := by simp [hpc, PC.redialing]
    have h1 : g.reconnecting = IS_RECONNECTING := by
      rcases hinv.1 with h0 | h1
      · have := hinv.2.1 h0 i
        rw [hi] at this; cases this
      · exact h1
    exact GateInv.leave g _ i _ hinv hi (by simp [compareAndSwap, h1]) rfl rfl
  · rename_i hpc
    cases h
    exact GateInv.same_side g _ i _ hinv rfl rfl (by simp [hpc, PC.redialing])
      (fun hx => by rcases hx with hx | hx | hx <;> cases hx)
  · cases h

theorem Gate.run_inv (ms : List Move) : ∀ (g g1 : Gate), GateInv g →
    g.run ms = some g1 → GateInv g1 := by
  induction ms with
  | nil => intro g g1 hinv h; cases h; exact hinv
  | cons m ms ih =>
    intro g g1 hinv h
    simp only [Gate.run] at h
    cases hs : g.step m.caller m.dialOk m.newConn with
    | none => rw [hs] at h; cases h
    | some g2 =>
      rw [hs] at h
      exact ih g2 g1 (Gate.step_inv g g2 _ _ _ hinv hs) h


/-- C9, as the claim states it, fails on two interleavings of two calls
issued while the gate is connected. In the first, caller 1 finds the gate
taken and returns through `Wait` while the wait counter is still zero: no
connection has been installed, caller 0 has not dialed, and the gate still
reads reconnecting. In the second, caller 0 completes before caller 1 reads
the gate, and both callers close and dial. -/
theorem reconnect_not_single_flight :
    (∃ g, (Gate.init 0).run earlyWait = some g ∧
      (g.callers 1).pc = .returned true ∧ (g.callers 0).pc = .swapped ∧
      (g.callers 0).dials = 0 ∧ g.installs = 0 ∧ g.conn = some 0 ∧
      g.reconnecting = IS_RECONNECTING) ∧
    (∃ g, (Gate.init 0).run oneAfterTheOther = some g ∧
      (g.callers 0).pc = .returned false ∧ (g.callers 1).pc = .returned false ∧
      (g.callers 0).closes = 1 ∧ (g.callers 1).closes = 1 ∧
      (g.callers 0).dials = 2 ∧ (g.callers 1).dials = 1 ∧ g.installs = 2) := by
  constructor
  · exact ⟨_, rfl, by decide, by decide, by decide, by decide, by decide, by decide⟩
  · exact ⟨_, rfl, by decide, by decide, by decide, by decide, by decide, by decide, by decide⟩

/-- C9, amended: along every interleaving of `reconnect` calls issued while
the gate is connected, at every instant at most one caller is inside the
close-and-redial sequence, the gate reads reconnecting exactly while some
caller is inside it, and a caller that has not won the gate (it is before
its compare-and-swap, waiting, or has returned through `Wait`) has performed
no close and no dial. -/
theorem reconnect_one_redialer_at_a_time (c0 : Nat) (ms : List Move) (g : Gate)
    (hrun : (Gate.init c0).run ms = some g) :
    (∀ i j, (g.callers i).pc.redialing = true → (g.callers j).pc.redialing = true → i = j) ∧
    (g.reconnecting = IS_RECONNECTING ↔ ∃ i, (g.callers i).pc.redialing = true) ∧
    (∀ i, ((g.callers i).pc = .start ∨ (g.callers i).pc = .waiting ∨
        (g.callers i).pc = .returned true) →
      (g.callers i).dials = 0 ∧ (g.callers i).closes = 0) := by
  obtain ⟨ha, hb, he, hc, hd⟩ := Gate.run_inv ms (Gate.init c0) g (Gate.init_inv c0) hrun
  refine ⟨hc, ⟨he, ?_⟩, hd⟩
  rintro ⟨i, hi⟩
  rcases ha with h0 | h1
  · have := hb h0 i
    rw [hi] at this
    cases this
  · exact h1

theorem reconnect_one_redialer_at_a_time_witness :
    ∃ g, (Gate.init 0).run overlapped = some g ∧
      (g.callers 1).pc = .returned true ∧ (g.callers 0).pc = .returned false ∧
      (∀ i j, (g.callers i).pc.redialing = true → (g.callers j).pc.redialing = true → i = j) ∧
      (g.reconnecting = IS_RECONNECTING ↔ ∃ i, (g.callers i).pc.redialing = true) ∧
      (∀ i, ((g.callers i).pc = .start ∨ (g.callers i).pc = .waiting ∨
          (g.callers i).pc = .returned true) →
        (g.callers i).dials = 0 ∧ (g.callers i).closes = 0) :=
  ⟨_, rfl, by decide, by decide,
    reconnect_one_redialer_at_a_time 0 overlapped _ rfl⟩

end Coordinator
